import Mathlib

/-!
# Spell effects renderer (`src/Engine/SpellFxRenderer.cpp`)

A shallow embedding of the projectile clipping, the billboard near/far clipping, the
per-frame effect scheduling, the buff animations, the mass distortion curve and the
fireball impact case of `SpellFxRenderer.cpp`, and of the sampling callbacks of
`CharacterTapeRecorder.h`, with proofs of the properties the specification states about
them.

Conventions of the embedding.
* `float` and `double` values are exact rationals (`ℚ`): the properties are stated for exact
  arithmetic. Lean's `x / 0 = 0` differs from IEEE division; every theorem about a quotient
  either proves the divisor non-zero or does not depend on the quotient.
* `Duration` is its tick count, an unbounded `Int`.
* C arrays are index functions `Nat → α`; the array bounds live in a header that is not part
  of the sources at hand, so a bound is a hypothesis where a claim needs one.
* Calls into the external renderer (`render->...`) are recorded, in order, as a list of
  `RenderCall` values.
-/

namespace SpellFx

/-! ## Data model -/

/-- Three-component vector (`Vec3f`). -/
structure Vec3f where
  x : ℚ
  y : ℚ
  z : ℚ
deriving DecidableEq

/-- Colour value (`Color`), four channels. -/
structure Color where
  r : Nat
  g : Nat
  b : Nat
  a : Nat
deriving DecidableEq

/-- The fields of `RenderVertexSoft` that the projectile code reads or writes. -/
structure RenderVertexSoft where
  vWorldPosition : Vec3f
  vWorldViewPosition : Vec3f
  vWorldViewProjX : ℚ
  vWorldViewProjY : ℚ
deriving DecidableEq

/-- The parts of the external `Camera3D` the renderer uses: the view-plane distance, the
near and far clip distances, the world-to-view transform and the screen projection of a
view-space position. -/
structure Camera3D where
  ViewPlaneDistPixels : ℚ
  NearClip : ℚ
  FarClip : ℚ
  ViewTransform : Vec3f → Vec3f
  Project : Vec3f → ℚ × ℚ

/-! ## `ClipProjectileToViewPlane` -/

/-- Result of `ClipProjectileToViewPlane`: the returned flag and the two vertices as the
call leaves them (the C function modifies `p[0]` and `p[1]` in place). -/
structure ClipResult where
  ret : Bool
  p0 : RenderVertexSoft
  p1 : RenderVertexSoft
deriving DecidableEq

/-- `ClipProjectileToViewPlane(RenderVertexSoft *p)` with `D = pCamera3D->ViewPlaneDistPixels`,
`p0 = p[0]` and `p1 = p[1]`. -/
def ClipProjectileToViewPlane (D : ℚ) (p0 p1 : RenderVertexSoft) : ClipResult :=
  let pBehind : Bool := decide (p0.vWorldViewPosition.x < D)
  let pInFront : Bool := decide (D < p1.vWorldViewPosition.x)
  let pOnPlane : Bool := decide (D = p1.vWorldViewPosition.x)
  if pBehind || !(pInFront || pOnPlane) then
    if pBehind && !(pInFront || pOnPlane) then
      ⟨false, p0, p1⟩
    else if pInFront || pOnPlane then
      let invDeltaX := 1 / (p0.vWorldViewPosition.x - p1.vWorldViewPosition.x)
      let deltaY := (p0.vWorldViewPosition.y - p1.vWorldViewPosition.y) * invDeltaX
      let deltaZ := (p0.vWorldViewPosition.z - p1.vWorldViewPosition.z) * invDeltaX
      let deltaXToPlane := D - p1.vWorldViewPosition.x
      ⟨true, p0,
        { p1 with vWorldViewPosition :=
            ⟨deltaXToPlane + p1.vWorldViewPosition.x,
             deltaY * deltaXToPlane + p1.vWorldViewPosition.y,
             deltaXToPlane * deltaZ + p1.vWorldViewPosition.z⟩ }⟩
    else
      let invDeltaX := 1 / (p1.vWorldViewPosition.x - p0.vWorldViewPosition.x)
      let deltaY := (p1.vWorldViewPosition.y - p0.vWorldViewPosition.y) * invDeltaX
      let deltaZ := (p1.vWorldViewPosition.z - p0.vWorldViewPosition.z) * invDeltaX
      let deltaXToPlane := D - p0.vWorldViewPosition.x
      ⟨true,
        { p0 with vWorldViewPosition :=
            ⟨deltaXToPlane + p0.vWorldViewPosition.x,
             deltaY * deltaXToPlane + p0.vWorldViewPosition.y,
             deltaXToPlane * deltaZ + p0.vWorldViewPosition.z⟩ },
        p1⟩
  else
    ⟨true, p0, p1⟩

/-- A vertex whose view-space position is the given point (the other fields zero). -/
def viewVertex (x y z : ℚ) : RenderVertexSoft :=
  ⟨⟨0, 0, 0⟩, ⟨x, y, z⟩, 0, 0⟩

/-! ## Loops -/

/-- The C loop `for (int i = 0; i < n; ++i) body`, threading the loop state. -/
def forLoop {σ : Type} (n : Nat) (body : Nat → σ → σ) (init : σ) : σ :=
  (List.range n).foldl (fun st i => body i st) init

/-! ## Renderer state and recorded render calls -/

/-- One queued projectile (`ProjectileAnim`); `texture` stands for the `GraphicsImage *`. -/
structure ProjectileAnim where
  srcX : ℚ
  srcY : ℚ
  srcZ : ℚ
  dstX : ℚ
  dstY : ℚ
  dstZ : ℚ
  texture : Nat
deriving DecidableEq

/-- Animation state of one character portrait (`PlayerBuffAnim`). -/
structure PlayerBuffAnim where
  bRender : Bool
  uSpellAnimTimeElapsed : Int
  uSpellAnimTime : Int
  uSpellIconID : Int
deriving DecidableEq

/-- A call into the external renderer, with its arguments. -/
inductive RenderCall where
  | DrawProjectile (srcX srcY srcZ srcWidth dstX dstY dstZ dstWidth : ℚ) (texture : Nat)
  | ScreenFade (color : Color) (alpha : ℚ)
  | DrawSpecialEffectsQuad (texture : Nat) (palette : Int)
  | DrawTextureNew (u v : ℚ) (icon : Nat)
deriving DecidableEq

/-- Whether a recorded call is `render->DrawProjectile`. -/
def RenderCall.isDrawProjectile : RenderCall → Bool
  | .DrawProjectile .. => true
  | _ => false

/-- Whether a recorded call is `render->ScreenFade`. -/
def RenderCall.isScreenFade : RenderCall → Bool
  | .ScreenFade .. => true
  | _ => false

/-- The fields of `SpellFxRenderer` used by the per-frame code. `uNumProjectiles` and
`field_204` are C `int`s; a slot of `pProjectiles` is read only at indices
`0 ≤ i < uNumProjectiles`. -/
structure SpellFxRenderer where
  pProjectiles : Nat → ProjectileAnim
  uNumProjectiles : Int
  field_204 : Int
  uFadeTime : Int
  uFadeLength : Int
  uFadeColor : Color
  uAnimLength : Int
  pCharacterBuffs : Nat → PlayerBuffAnim

/-- The external collaborators of one frame: the camera, the event timer step
`pEventTimer->dt()`, the sprite frame table entry of `"spell84"` (its `uAnimLength`, and
texture and palette index of the frame `GetFrame` returns for an elapsed time), the icon
frame table (`animationFrame`) and the portrait x coordinates
`pPlayerPortraitsXCoords_For_PlayerBuffAnimsDrawing`. -/
structure Env where
  camera : Camera3D
  dt : Int
  spell84AnimLength : Int
  spell84FrameTexture : Int → Nat
  spell84FramePalette : Int → Int
  animationFrame : Int → Int → Nat
  portraitsX : Nat → Int

/-! ## `DrawProjectiles` -/

/-- `pCamera3D->ViewTransform(v, n)` on one vertex: fills the view-space position. -/
def Camera3D.viewTransformVertex (cam : Camera3D) (v : RenderVertexSoft) : RenderVertexSoft :=
  { v with vWorldViewPosition := cam.ViewTransform v.vWorldPosition }

/-- `pCamera3D->Project(v, n, 0)` on one vertex: fills the projected screen coordinates. -/
def Camera3D.projectVertex (cam : Camera3D) (v : RenderVertexSoft) : RenderVertexSoft :=
  { v with
    vWorldViewProjX := (cam.Project v.vWorldViewPosition).1
    vWorldViewProjY := (cam.Project v.vWorldViewPosition).2 }

/-- One iteration of the loop of `DrawProjectiles` for the projectile `p`: the call made
to `render->DrawProjectile`. The local vertex array `v` is uninitialised in C; every field
read here is written earlier in the same iteration, so it starts from zeros. The return
value of `ClipProjectileToViewPlane` is discarded, as in the source. -/
def DrawProjectiles.iteration (cam : Camera3D) (p : ProjectileAnim) : RenderCall :=
  let v0 : RenderVertexSoft := ⟨⟨p.srcX, p.srcY, p.srcZ⟩, ⟨0, 0, 0⟩, 0, 0⟩
  let v1 : RenderVertexSoft := ⟨⟨p.dstX, p.dstY, p.dstZ⟩, ⟨0, 0, 0⟩, 0, 0⟩
  let v0 := cam.viewTransformVertex v0
  let v1 := cam.viewTransformVertex v1
  let clipped := ClipProjectileToViewPlane cam.ViewPlaneDistPixels v0 v1
  let v0 := cam.projectVertex clipped.p0
  let v1 := cam.projectVertex clipped.p1
  let dstWidthScale := cam.ViewPlaneDistPixels / v1.vWorldViewPosition.x * 20
  let srcWidthScale := cam.ViewPlaneDistPixels / v0.vWorldViewPosition.x * 20
  RenderCall.DrawProjectile v0.vWorldViewProjX v0.vWorldViewProjY v0.vWorldViewPosition.x
    srcWidthScale v1.vWorldViewProjX v1.vWorldViewProjY v1.vWorldViewPosition.x
    dstWidthScale p.texture

/-- `SpellFxRenderer::DrawProjectiles`: the render calls it makes, in order. -/
def DrawProjectiles (cam : Camera3D) (s : SpellFxRenderer) : List RenderCall :=
  forLoop s.uNumProjectiles.toNat
    (fun i calls => calls ++ [DrawProjectiles.iteration cam (s.pProjectiles i)]) []

/-! ## `FadeScreen__like_Turn_Undead_and_mb_Armageddon` and `RenderSpecialEffects` -/

/-- `SpellFxRenderer::FadeScreen__like_Turn_Undead_and_mb_Armageddon(uDiffuseColor, uFadeTime)`. -/
def FadeScreen__like_Turn_Undead_and_mb_Armageddon (uDiffuseColor : Color) (uFadeTime : Int)
    (s : SpellFxRenderer) : SpellFxRenderer :=
  { s with uFadeTime := uFadeTime, uFadeLength := uFadeTime, uFadeColor := uDiffuseColor }

/-- First block of `RenderSpecialEffects`: draw and flush the projectile queue, then reset
the per-frame counter `field_204`. -/
def RenderSpecialEffects.projectiles (env : Env) (s : SpellFxRenderer) :
    SpellFxRenderer × List RenderCall :=
  let r : SpellFxRenderer × List RenderCall :=
    if s.uNumProjectiles ≠ 0 then
      ({ s with uNumProjectiles := 0 }, DrawProjectiles env.camera s)
    else (s, [])
  ({ r.1 with field_204 := 0 }, r.2)

/-- The alpha `RenderSpecialEffects` passes to `render->ScreenFade`. -/
def RenderSpecialEffects.fadeAlpha (uFadeTime uFadeLength : Int) : ℚ :=
  let fadeProgress : ℚ := (uFadeTime : ℚ) / (uFadeLength : ℚ)
  let fadeAmount : ℚ := 1 - fadeProgress * fadeProgress
  if fadeAmount > 9 / 10 then 1 - (fadeAmount - 9 / 10) * 10 else fadeAmount

/-- Second block of `RenderSpecialEffects`: the screen fade. -/
def RenderSpecialEffects.fade (env : Env) (s : SpellFxRenderer) :
    SpellFxRenderer × List RenderCall :=
  if s.uFadeTime > 0 then
    ({ s with uFadeTime := s.uFadeTime - env.dt },
      [RenderCall.ScreenFade s.uFadeColor (RenderSpecialEffects.fadeAlpha s.uFadeTime s.uFadeLength)])
  else (s, [])

/-- Third block of `RenderSpecialEffects`: the prismatic light overlay. -/
def RenderSpecialEffects.prismatic (env : Env) (s : SpellFxRenderer) :
    SpellFxRenderer × List RenderCall :=
  if s.uAnimLength > 0 then
    let animElapsed := env.spell84AnimLength - s.uAnimLength
    ({ s with uAnimLength := s.uAnimLength - env.dt },
      [RenderCall.DrawSpecialEffectsQuad (env.spell84FrameTexture animElapsed)
        (env.spell84FramePalette animElapsed)])
  else (s, [])

/-- `SpellFxRenderer::RenderSpecialEffects`: the state it leaves and the render calls it
makes, in order. -/
def RenderSpecialEffects (env : Env) (s : SpellFxRenderer) : SpellFxRenderer × List RenderCall :=
  let r1 := RenderSpecialEffects.projectiles env s
  let r2 := RenderSpecialEffects.fade env r1.1
  let r3 := RenderSpecialEffects.prismatic env r2.1
  (r3.1, r1.2 ++ r2.2 ++ r3.2)

/-- The state after `k` frames that each call `RenderSpecialEffects` once. -/
def renderFrames (env : Env) : Nat → SpellFxRenderer → SpellFxRenderer
  | 0, s => s
  | k + 1, s => (RenderSpecialEffects env (renderFrames env k s)).1

/-- Number of `render->ScreenFade` calls among recorded calls. -/
def countScreenFade (calls : List RenderCall) : Nat :=
  (calls.filter RenderCall.isScreenFade).length

/-! ## `DrawPlayerBuffAnims` -/

/-- Body of the loop of `DrawPlayerBuffAnims` for slot `i`. -/
def DrawPlayerBuffAnims.body (env : Env) (i : Nat) (st : SpellFxRenderer × List RenderCall) :
    SpellFxRenderer × List RenderCall :=
  let buff := st.1.pCharacterBuffs i
  if !buff.bRender then st
  else
    let buff : PlayerBuffAnim :=
      { buff with uSpellAnimTimeElapsed := buff.uSpellAnimTimeElapsed + env.dt }
    if buff.uSpellAnimTimeElapsed ≥ buff.uSpellAnimTime then
      ({ st.1 with pCharacterBuffs :=
          Function.update st.1.pCharacterBuffs i { buff with bRender := false } }, st.2)
    else
      let icon := env.animationFrame buff.uSpellIconID buff.uSpellAnimTimeElapsed
      ({ st.1 with pCharacterBuffs := Function.update st.1.pCharacterBuffs i buff },
        st.2 ++ [RenderCall.DrawTextureNew ((env.portraitsX i : ℚ) / 640) (385 / 480) icon])

/-- `SpellFxRenderer::DrawPlayerBuffAnims`: the state it leaves and the render calls it
makes, in order. -/
def DrawPlayerBuffAnims (env : Env) (s : SpellFxRenderer) : SpellFxRenderer × List RenderCall :=
  forLoop 4 (DrawPlayerBuffAnims.body env) (s, [])

/-- What the buff animation of one slot does in a frame, in the words of the specification:
the calls made for a slot holding `b` at index `i`. -/
def buffSlotCalls (env : Env) (i : Nat) (b : PlayerBuffAnim) : List RenderCall :=
  if b.bRender = true ∧ b.uSpellAnimTimeElapsed + env.dt < b.uSpellAnimTime then
    [RenderCall.DrawTextureNew ((env.portraitsX i : ℚ) / 640) (385 / 480)
      (env.animationFrame b.uSpellIconID (b.uSpellAnimTimeElapsed + env.dt))]
  else []

/-- What a frame does to the buff animation of one slot, in the words of the
specification: a slot that is not rendering is untouched; a rendering slot has the timer
step added to its elapsed time and keeps rendering exactly when the updated elapsed time is
strictly below the animation time. -/
def buffSlotAfter (env : Env) (b : PlayerBuffAnim) : PlayerBuffAnim :=
  if b.bRender = true then
    { b with
      uSpellAnimTimeElapsed := b.uSpellAnimTimeElapsed + env.dt
      bRender := decide (b.uSpellAnimTimeElapsed + env.dt < b.uSpellAnimTime) }
  else b

/-! ## `SpellFX_Billboard` clipping -/

/-- Billboard vertex (`SpellFX_Billboard::local_01`). -/
structure local_01 where
  pos : Vec3f
  diffuse : Color
deriving DecidableEq

/-- The fields of `SpellFX_Billboard` used by the view clip: the vertex count, the
view-space vertices `field_64` and the clipped vertices `field_B4`. The count is kept
non-negative (the code only ever stores 3 or a produced-vertex count in it). -/
structure SpellFX_Billboard where
  uNumVertices : Nat
  field_64 : Nat → local_01
  field_B4 : Nat → local_01

/-- Loop state of the two clip-adjust functions. -/
structure ClipLoopState where
  field_B4 : Nat → local_01
  ProducedVerts : Nat
  currvert : Bool

/-- Body of the loop of `SpellFXNearClipAdjust` for edge `i`, `i + 1`. -/
def SpellFXNearClipAdjust.body (NearClip : ℚ) (field_64 : Nat → local_01) (i : Nat)
    (st : ClipLoopState) : ClipLoopState :=
  let nextvert : Bool := decide ((field_64 (i + 1)).pos.x ≤ NearClip)
  let st : ClipLoopState :=
    if xor st.currvert nextvert then
      if nextvert then
        let Tmult : ℚ := (NearClip - (field_64 i).pos.x) /
          ((field_64 (i + 1)).pos.x - (field_64 i).pos.x)
        { st with
          field_B4 := Function.update st.field_B4 st.ProducedVerts
            ⟨⟨NearClip,
              ((field_64 (i + 1)).pos.y - (field_64 i).pos.y) * Tmult + (field_64 i).pos.y,
              ((field_64 (i + 1)).pos.z - (field_64 i).pos.z) * Tmult + (field_64 i).pos.z⟩,
             (field_64 i).diffuse⟩
          ProducedVerts := st.ProducedVerts + 1 }
      else
        let Tmult : ℚ := (NearClip - (field_64 i).pos.x) /
          ((field_64 i).pos.x - (field_64 (i + 1)).pos.x)
        { st with
          field_B4 := Function.update st.field_B4 st.ProducedVerts
            ⟨⟨NearClip,
              ((field_64 i).pos.y - (field_64 (i + 1)).pos.y) * Tmult + (field_64 i).pos.y,
              ((field_64 i).pos.z - (field_64 (i + 1)).pos.z) * Tmult + (field_64 i).pos.z⟩,
             (field_64 i).diffuse⟩
          ProducedVerts := st.ProducedVerts + 1 }
    else st
  let st : ClipLoopState :=
    if !nextvert then
      { st with
        field_B4 := Function.update st.field_B4 st.ProducedVerts (field_64 (i + 1))
        ProducedVerts := st.ProducedVerts + 1 }
    else st
  { st with currvert := nextvert }

/-- `SpellFX_Billboard::SpellFXNearClipAdjust(NearClip)`: the returned count and the
billboard as the call leaves it. -/
def SpellFXNearClipAdjust (NearClip : ℚ) (b : SpellFX_Billboard) : Nat × SpellFX_Billboard :=
  if b.uNumVertices = 0 then (0, b)
  else
    let field_64 := Function.update b.field_64 b.uNumVertices (b.field_64 0)
    let st := forLoop b.uNumVertices (SpellFXNearClipAdjust.body NearClip field_64)
      ⟨b.field_B4, 0, decide ((field_64 0).pos.x ≤ NearClip)⟩
    (st.ProducedVerts,
      { uNumVertices := st.ProducedVerts, field_64 := field_64, field_B4 := st.field_B4 })

/-- Body of the loop of `SpellFXFarClipAdjust` for edge `i`, `i + 1`. The diffuse colour of
a vertex generated on a leaving edge is read at index `i * 4 + 3`, as the source does. -/
def SpellFXFarClipAdjust.body (farclip : ℚ) (field_64 : Nat → local_01) (i : Nat)
    (st : ClipLoopState) : ClipLoopState :=
  let nextvert : Bool := decide ((field_64 (i + 1)).pos.x ≥ farclip)
  let st : ClipLoopState :=
    if xor st.currvert nextvert then
      if nextvert then
        let Tmult : ℚ := (farclip - (field_64 i).pos.x) /
          ((field_64 (i + 1)).pos.x - (field_64 i).pos.x)
        { st with
          field_B4 := Function.update st.field_B4 st.ProducedVerts
            ⟨⟨farclip,
              ((field_64 (i + 1)).pos.y - (field_64 i).pos.y) * Tmult + (field_64 i).pos.y,
              ((field_64 (i + 1)).pos.z - (field_64 i).pos.z) * Tmult + (field_64 i).pos.z⟩,
             (field_64 i).diffuse⟩
          ProducedVerts := st.ProducedVerts + 1 }
      else
        let Tmult : ℚ := (farclip - (field_64 i).pos.x) /
          ((field_64 i).pos.x - (field_64 (i + 1)).pos.x)
        { st with
          field_B4 := Function.update st.field_B4 st.ProducedVerts
            ⟨⟨farclip,
              ((field_64 i).pos.y - (field_64 (i + 1)).pos.y) * Tmult + (field_64 i).pos.y,
              ((field_64 i).pos.z - (field_64 (i + 1)).pos.z) * Tmult + (field_64 i).pos.z⟩,
             (field_64 (i * 4 + 3)).diffuse⟩
          ProducedVerts := st.ProducedVerts + 1 }
    else st
  let st : ClipLoopState :=
    if !nextvert then
      { st with
        field_B4 := Function.update st.field_B4 st.ProducedVerts (field_64 (i + 1))
        ProducedVerts := st.ProducedVerts + 1 }
    else st
  { st with currvert := nextvert }

/-- `SpellFX_Billboard::SpellFXFarClipAdjust(farclip)`: the returned count and the
billboard as the call leaves it. -/
def SpellFXFarClipAdjust (farclip : ℚ) (b : SpellFX_Billboard) : Nat × SpellFX_Billboard :=
  if b.uNumVertices = 0 then (0, b)
  else
    let field_64 := Function.update b.field_64 b.uNumVertices (b.field_64 0)
    let st := forLoop b.uNumVertices (SpellFXFarClipAdjust.body farclip field_64)
      ⟨b.field_B4, 0, decide ((field_64 0).pos.x ≥ farclip)⟩
    (st.ProducedVerts,
      { uNumVertices := st.ProducedVerts, field_64 := field_64, field_B4 := st.field_B4 })

/-- Body of the scanning loop of `SpellFXViewClip`; the state is
`(NeedNearClip, NeedFarClip)`. -/
def SpellFXViewClip.scan (NearClip FarClip : ℚ) (field_64 : Nat → local_01) (v6 : Nat)
    (need : Bool × Bool) : Bool × Bool :=
  if NearClip ≥ (field_64 v6).pos.x ∨ (field_64 v6).pos.x ≥ FarClip then
    if NearClip < (field_64 v6).pos.x then (need.1, true) else (true, need.2)
  else need

/-- `SpellFX_Billboard::SpellFXViewClip()`: the returned flag and the billboard as the call
leaves it. The clip distances come from `pCamera3D->GetNearClip()` and `GetFarClip()`. -/
def SpellFXViewClip (cam : Camera3D) (b : SpellFX_Billboard) : Bool × SpellFX_Billboard :=
  let NearClip := cam.NearClip
  let FarClip := cam.FarClip
  if b.uNumVertices ≤ 0 then
    (decide (b.uNumVertices ≠ 0), b)
  else
    let need := forLoop b.uNumVertices (SpellFXViewClip.scan NearClip FarClip b.field_64)
      (false, false)
    if !need.1 then
      if need.2 then
        let b := (SpellFXFarClipAdjust FarClip b).2
        (decide (b.uNumVertices ≠ 0), b)
      else
        let field_B4 := forLoop b.uNumVertices
          (fun i field_B4 => Function.update field_B4 i (b.field_64 i)) b.field_B4
        let b : SpellFX_Billboard := { b with field_B4 := field_B4 }
        (decide (b.uNumVertices ≠ 0), b)
    else
      let b := (SpellFXNearClipAdjust NearClip b).2
      (decide (b.uNumVertices ≠ 0), b)

/-- A billboard vertex at the given view-space position, with a black diffuse colour. -/
def vertexAt (x y z : ℚ) : local_01 :=
  ⟨⟨x, y, z⟩, ⟨0, 0, 0, 0⟩⟩

/-- A triangle held in `field_64` (`uNumVertices = 3`) with the given x coordinates and
all other coordinates zero; `field_B4` starts zeroed. -/
def triangleX (x0 x1 x2 : ℚ) : SpellFX_Billboard :=
  { uNumVertices := 3
    field_64 := fun i =>
      if i = 0 then vertexAt x0 0 0 else if i = 1 then vertexAt x1 0 0
      else if i = 2 then vertexAt x2 0 0 else vertexAt 0 0 0
    field_B4 := fun _ => vertexAt 0 0 0 }

/-- A camera whose view transform is the identity, with the view plane at `D`. -/
def identityCamera (D : ℚ) : Camera3D :=
  ⟨D, 1, 50, fun v => v, fun v => (v.y, v.z)⟩

/-- A renderer with nothing queued and no effect running. -/
def idleRenderer : SpellFxRenderer :=
  { pProjectiles := fun _ => ⟨0, 0, 0, 0, 0, 0, 0⟩
    uNumProjectiles := 0
    field_204 := 0
    uFadeTime := 0
    uFadeLength := 0
    uFadeColor := ⟨0, 0, 0, 0⟩
    uAnimLength := 0
    pCharacterBuffs := fun _ => ⟨false, 0, 0, 0⟩ }

/-- A renderer whose four buff slots hold: a running animation that continues, a running
animation that expires this frame, an idle slot, and another idle slot. -/
def buffRenderer : SpellFxRenderer :=
  { idleRenderer with
    pCharacterBuffs := fun i =>
      if i = 0 then ⟨true, 0, 100, 5⟩ else if i = 1 then ⟨true, 90, 100, 6⟩
      else ⟨false, 30, 100, 7⟩ }

/-- A renderer with one queued projectile from `(1, 0, 0)` to `(2, 0, 0)`, texture 7. -/
def oneProjectileRenderer : SpellFxRenderer :=
  { idleRenderer with
    pProjectiles := fun _ => ⟨1, 0, 0, 2, 0, 0, 7⟩
    uNumProjectiles := 1 }

/-- A frame environment with the identity camera (view plane at 5) and timer step `dt`. -/
def frameEnv (dt : Int) : Env :=
  { camera := identityCamera 5
    dt := dt
    spell84AnimLength := 0
    spell84FrameTexture := fun _ => 0
    spell84FramePalette := fun _ => 0
    animationFrame := fun _ _ => 0
    portraitsX := fun _ => 0 }

/-- The point `a + t * (b - a)` of the straight line through `a` and `b`. -/
def lerp (a b : Vec3f) (t : ℚ) : Vec3f :=
  ⟨a.x + t * (b.x - a.x), a.y + t * (b.y - a.y), a.z + t * (b.z - a.z)⟩

/-! ## `SetPlayerBuffAnim` -/

/-- The spell identifiers (`SpellId`) that `SetPlayerBuffAnim` names: `SPELL_NONE` and its
case labels; every other enumerator of the enumeration is `other` with its numeric value.
The enumeration is declared outside the sources at hand; its enumerators are distinct
values. -/
inductive SpellId where
  | SPELL_NONE
  | SPELL_DISEASE
  | BECOME_MAGIC_GUILD_MEMBER
  | SPELL_AIR_FEATHER_FALL
  | SPELL_SPIRIT_DETECT_LIFE
  | SPELL_SPIRIT_FATE
  | SPELL_QUEST_COMPLETED
  | SPELL_AIR_INVISIBILITY
  | SPELL_WATER_WATER_WALK
  | SPELL_SPIRIT_PRESERVATION
  | SPELL_STAT_DECREASE
  | SPELL_LIGHT_HOUR_OF_POWER
  | SPELL_LIGHT_DAY_OF_THE_GODS
  | SPELL_LIGHT_DAY_OF_PROTECTION
  | SPELL_LIGHT_DIVINE_INTERVENTION
  | SPELL_SPIRIT_REMOVE_CURSE
  | SPELL_MIND_REMOVE_FEAR
  | SPELL_BODY_CURE_WEAKNESS
  | SPELL_SPIRIT_SHARED_LIFE
  | SPELL_MIND_CURE_PARALYSIS
  | SPELL_MIND_CURE_INSANITY
  | SPELL_BODY_FIRST_AID
  | SPELL_BODY_CURE_POISON
  | SPELL_BODY_CURE_DISEASE
  | SPELL_DARK_SACRIFICE
  | SPELL_BODY_POWER_CURE
  | SPELL_DARK_SOULDRINKER
  | SPELL_FIRE_PROTECTION_FROM_FIRE
  | SPELL_FIRE_IMMOLATION
  | SPELL_FIRE_HASTE
  | SPELL_AIR_PROTECTION_FROM_AIR
  | SPELL_AIR_SHIELD
  | SPELL_WATER_PROTECTION_FROM_WATER
  | SPELL_EARTH_PROTECTION_FROM_EARTH
  | SPELL_EARTH_STONESKIN
  | SPELL_SPIRIT_BLESS
  | SPELL_SPIRIT_HEROISM
  | SPELL_SPIRIT_RESSURECTION
  | SPELL_MIND_PROTECTION_FROM_MIND
  | SPELL_BODY_PROTECTION_FROM_BODY
  | SPELL_BODY_REGENERATION
  | SPELL_BODY_HAMMERHANDS
  | SPELL_BODY_PROTECTION_FROM_MAGIC
  | other (value : Nat)
deriving DecidableEq

/-- The external icon frame table `pIconsFrameTable`, as far as `SetPlayerBuffAnim` uses
it. -/
structure IconFrameTable where
  animationId : String → Int
  animationLength : Int → Int

/-- A lookup made in the icon frame table. -/
inductive IconLookup where
  | animationId (iconName : String)
  | animationLength (iconId : Int)
deriving DecidableEq

/-- The `switch` of `SetPlayerBuffAnim`: the icon name a case label selects, `none` for the
`default` branch. -/
def SetPlayerBuffAnim.iconName : SpellId → Option String
  | .SPELL_DISEASE => some "zapp"
  | .BECOME_MAGIC_GUILD_MEMBER => some "spboost1"
  | .SPELL_AIR_FEATHER_FALL => some "spboost1"
  | .SPELL_SPIRIT_DETECT_LIFE => some "spboost1"
  | .SPELL_SPIRIT_FATE => some "spboost1"
  | .SPELL_QUEST_COMPLETED => some "spboost2"
  | .SPELL_AIR_INVISIBILITY => some "spboost2"
  | .SPELL_WATER_WATER_WALK => some "spboost2"
  | .SPELL_SPIRIT_PRESERVATION => some "spboost2"
  | .SPELL_STAT_DECREASE => some "spboost3"
  | .SPELL_LIGHT_HOUR_OF_POWER => some "spboost3"
  | .SPELL_LIGHT_DAY_OF_THE_GODS => some "spboost3"
  | .SPELL_LIGHT_DAY_OF_PROTECTION => some "spboost3"
  | .SPELL_LIGHT_DIVINE_INTERVENTION => some "spboost3"
  | .SPELL_SPIRIT_REMOVE_CURSE => some "spheal1"
  | .SPELL_MIND_REMOVE_FEAR => some "spheal1"
  | .SPELL_BODY_CURE_WEAKNESS => some "spheal1"
  | .SPELL_SPIRIT_SHARED_LIFE => some "spheal2"
  | .SPELL_MIND_CURE_PARALYSIS => some "spheal2"
  | .SPELL_MIND_CURE_INSANITY => some "spheal2"
  | .SPELL_BODY_FIRST_AID => some "spheal2"
  | .SPELL_BODY_CURE_POISON => some "spheal2"
  | .SPELL_BODY_CURE_DISEASE => some "spheal2"
  | .SPELL_DARK_SACRIFICE => some "spheal2"
  | .SPELL_BODY_POWER_CURE => some "spheal3"
  | .SPELL_DARK_SOULDRINKER => some "spheal3"
  | .SPELL_FIRE_PROTECTION_FROM_FIRE => some "spell03"
  | .SPELL_FIRE_IMMOLATION => some "spell03"
  | .SPELL_FIRE_HASTE => some "spell05"
  | .SPELL_AIR_PROTECTION_FROM_AIR => some "spell14"
  | .SPELL_AIR_SHIELD => some "spell17"
  | .SPELL_WATER_PROTECTION_FROM_WATER => some "spell25"
  | .SPELL_EARTH_PROTECTION_FROM_EARTH => some "spell36"
  | .SPELL_EARTH_STONESKIN => some "spell38"
  | .SPELL_SPIRIT_BLESS => some "spell46"
  | .SPELL_SPIRIT_HEROISM => some "spell51"
  | .SPELL_SPIRIT_RESSURECTION => some "spell55"
  | .SPELL_MIND_PROTECTION_FROM_MIND => some "spell58"
  | .SPELL_BODY_PROTECTION_FROM_BODY => some "spell69"
  | .SPELL_BODY_REGENERATION => some "spell71"
  | .SPELL_BODY_HAMMERHANDS => some "spell73"
  | .SPELL_BODY_PROTECTION_FROM_MAGIC => some "spell75"
  | _ => none

/-- `SpellFxRenderer::SetPlayerBuffAnim(uSpellID, uPlayerID)`: the state it leaves and the
lookups it makes in the icon frame table, in order. -/
def SetPlayerBuffAnim (tbl : IconFrameTable) (uSpellID : SpellId) (uPlayerID : Nat)
    (s : SpellFxRenderer) : SpellFxRenderer × List IconLookup :=
  let pBuffAnim := s.pCharacterBuffs uPlayerID
  let pBuffAnim : PlayerBuffAnim := { pBuffAnim with uSpellAnimTimeElapsed := 0 }
  let pBuffAnim : PlayerBuffAnim :=
    { pBuffAnim with bRender := decide (uSpellID ≠ SpellId.SPELL_NONE) }
  match SetPlayerBuffAnim.iconName uSpellID with
  | none =>
    ({ s with pCharacterBuffs :=
        Function.update s.pCharacterBuffs uPlayerID { pBuffAnim with bRender := false } }, [])
  | some iconName =>
    let pBuffAnim : PlayerBuffAnim :=
      { pBuffAnim with uSpellIconID := tbl.animationId iconName }
    if pBuffAnim.bRender then
      let withLength : PlayerBuffAnim :=
        { pBuffAnim with uSpellAnimTime := tbl.animationLength pBuffAnim.uSpellIconID }
      ({ s with pCharacterBuffs := Function.update s.pCharacterBuffs uPlayerID withLength },
        [IconLookup.animationId iconName, IconLookup.animationLength pBuffAnim.uSpellIconID])
    else
      ({ s with pCharacterBuffs := Function.update s.pCharacterBuffs uPlayerID pBuffAnim },
        [IconLookup.animationId iconName])

/-- An icon frame table for examples: the id of a name is its length, an animation of id
`n` lasts `10 * n` ticks. -/
def demoIconTable : IconFrameTable :=
  ⟨fun name => (name.length : Int), fun id => 10 * id⟩

/-! ## `CharacterTapeRecorder` (`test/Testing/Game/CharacterTapeRecorder.h`) -/

/-- The sample the plural `CharacterTapeRecorder::custom(callback)` records: the body of
the lambda it hands to `recordTape`, run on the party `characters()`. `recordTape` belongs
to the test controller and stores the value of the lambda at each recording point. -/
def CharacterTapeRecorder.custom {Character T : Type} (callback : Character → T)
    (characters : List Character) : List T :=
  characters.foldl (fun result character => result ++ [callback character]) []

/-- The sample the singular `CharacterTapeRecorder::custom(characterIndex, callback)`
records: `callback(characters()[characterIndex])`. An index outside the party is undefined
behaviour in C++ and gives `none` here. -/
def CharacterTapeRecorder.customIndex {Character T : Type} (characterIndex : Int)
    (callback : Character → T) (characters : List Character) : Option T :=
  if 0 ≤ characterIndex then (characters.get? characterIndex.toNat).map callback else none

/-! ## `DoAddProjectile` -/

/-- `SpellFxRenderer::DoAddProjectile(srcX, srcY, srcZ, dstX, dstY, dstZ, texture)`. The
slot index is the counter itself; a negative counter would index before the array in C++
and is outside this model. -/
def DoAddProjectile (srcX srcY srcZ dstX dstY dstZ : ℚ) (texture : Nat)
    (s : SpellFxRenderer) : SpellFxRenderer :=
  if s.uNumProjectiles < 32 then
    { s with
      pProjectiles := Function.update s.pProjectiles s.uNumProjectiles.toNat
        ⟨srcX, srcY, srcZ, dstX, dstY, dstZ, texture⟩
      uNumProjectiles := s.uNumProjectiles + 1 }
  else s

/-- A sequence of `DoAddProjectile` calls, one for each listed argument tuple, in order. -/
def addProjectiles (calls : List ProjectileAnim) (s : SpellFxRenderer) : SpellFxRenderer :=
  calls.foldl
    (fun st p => DoAddProjectile p.srcX p.srcY p.srcZ p.dstX p.dstY p.dstZ p.texture st) s

/-! ## Sequences of fade operations -/

/-- One operation on the fade state: a `FadeScreen__like_Turn_Undead_and_mb_Armageddon`
call or a `RenderSpecialEffects` call in a given frame environment. -/
inductive FadeOp where
  | fadeScreen (uDiffuseColor : Color) (uFadeTime : Int)
  | render (env : Env)

/-- The state an operation leaves. -/
def FadeOp.apply : FadeOp → SpellFxRenderer → SpellFxRenderer
  | .fadeScreen color t, s => FadeScreen__like_Turn_Undead_and_mb_Armageddon color t s
  | .render env, s => (RenderSpecialEffects env s).1

/-- The timer step of an operation is not negative (a `FadeScreen` call has none). -/
def FadeOp.stepNonneg : FadeOp → Prop
  | .fadeScreen _ _ => True
  | .render env => 0 ≤ env.dt

/-- The state after a sequence of operations. -/
def runFadeOps (ops : List FadeOp) (s : SpellFxRenderer) : SpellFxRenderer :=
  ops.foldl (fun st op => op.apply st) s

/-! ## `_4A806F_get_mass_distortion_value` -/

/-- The field of `Actor` the mass distortion code uses: the time (in ticks) at which the
spell was applied, zero when the actor is not distorted. -/
structure Actor where
  massDistortionTime : Int
deriving DecidableEq

/-- The external timer `pMiscTimer`: its current `time()` in ticks, and the conversion
`Duration::realtimeMillisecondsFloat()` of a tick count, which is declared outside the
sources at hand. -/
structure MiscTimer where
  time : Int
  realtimeMillisecondsFloat : Int → ℚ

/-- `SpellFxRenderer::_4A806F_get_mass_distortion_value(pActor)`: the returned value and
the actor as the call leaves it; `none` when the `assert` of the function fails. -/
def _4A806F_get_mass_distortion_value (pMiscTimer : MiscTimer) (pActor : Actor) :
    Option (ℚ × Actor) :=
  if pActor.massDistortionTime = 0 then some (1, pActor)
  else if ¬ (pActor.massDistortionTime ≤ pMiscTimer.time) then none
  else
    let v3 : ℚ :=
      1 - pMiscTimer.realtimeMillisecondsFloat (pMiscTimer.time - pActor.massDistortionTime)
    if v3 > 1 / 2 then
      let v2 := (v3 - 1 / 2) * (v3 - 1 / 2) / (1 / 4)
      some (1 / 5 + v2 * (4 / 5), pActor)
    else if v3 > 0 then
      let v2 := v3 * v3 / (1 / 4)
      some (1 - v2 * (4 / 5), pActor)
    else
      some (1, { pActor with massDistortionTime := 0 })

/-- The animation curve of the mass distortion in the words of the specification, as a
function of `v = 1 - elapsed`: `0.2 + 0.8 * (v - 0.5)^2 / 0.25` for `v > 0.5`,
`1 - 0.8 * v^2 / 0.25` for `0 < v ≤ 0.5` and `1` for `v ≤ 0`. -/
def massDistortionCurve (v : ℚ) : ℚ :=
  if v > 1 / 2 then 1 / 5 + 4 / 5 * (v - 1 / 2) ^ 2 / (1 / 4)
  else if 0 < v then 1 - 4 / 5 * v ^ 2 / (1 / 4)
  else 1

/-- A timer for examples, at tick `now`, that converts ticks at 128 ticks per unit. -/
def demoTimer (now : Int) : MiscTimer :=
  ⟨now, fun ticks => (ticks : ℚ) / 128⟩

/-! ## Edges of the near clip -/

/-- The polygon `SpellFXNearClipAdjust` walks: `field_64` with the wrap-around copy of
vertex 0 stored at index `uNumVertices`. -/
def SpellFXNearClipAdjust.closed (b : SpellFX_Billboard) : Nat → local_01 :=
  Function.update b.field_64 b.uNumVertices (b.field_64 0)

/-- The loop state of `SpellFXNearClipAdjust` on entry to iteration `i`. -/
def SpellFXNearClipAdjust.entry (NearClip : ℚ) (b : SpellFX_Billboard) (i : Nat) :
    ClipLoopState :=
  forLoop i (SpellFXNearClipAdjust.body NearClip (SpellFXNearClipAdjust.closed b))
    ⟨b.field_B4, 0, decide (((SpellFXNearClipAdjust.closed b) 0).pos.x ≤ NearClip)⟩

/-! ## The mirror image of a billboard -/

/-- The position with its `x` coordinate negated. -/
def negX (v : Vec3f) : Vec3f :=
  ⟨-v.x, v.y, v.z⟩

/-- The vertex with the `x` coordinate of its position negated. -/
def mirrorVertex (v : local_01) : local_01 :=
  { v with pos := negX v.pos }

/-- The billboard whose polygon in `field_64` has every `x` coordinate negated. -/
def mirrorBillboard (b : SpellFX_Billboard) : SpellFX_Billboard :=
  { b with field_64 := fun i => mirrorVertex (b.field_64 i) }

/-! ## `RenderAsSprite`, the fireball impact case -/

/-- The sprite types (`SpriteId`) as far as the fireball impact case needs them: the case
label itself; every other enumerator is `other` with its numeric value. The enumeration is
declared outside the sources at hand. -/
inductive SpriteId where
  | SPRITE_SPELL_FIRE_FIREBALL_IMPACT
  | other (value : Nat)
deriving DecidableEq

/-- The object types (`ObjectType`) a caster id can have: sprite objects, and every other
enumerator as `other` with its numeric value. -/
inductive ObjectType where
  | OBJECT_Sprite
  | other (value : Nat)
deriving DecidableEq

/-- The fields of `SpriteObject` the fireball impact case reads: the sprite type and the
type of the caster id (`spell_caster_pid.type()`); `index` tells sprite objects apart. -/
structure SpriteObject where
  index : Nat
  uType : SpriteId
  spell_caster_pid_type : ObjectType
deriving DecidableEq

/-- An effect call `RenderAsSprite` makes for a sprite. `otherCase` stands for what the
other cases of the `switch` do. -/
inductive SpriteFxCall where
  | AddMobileLight (a1 : SpriteObject) (uDiffuse : Color) (uRadius : Int)
  | _4A7688_fireball_collision_particle (a2 : SpriteObject)
  | otherCase (a2 : SpriteObject)
deriving DecidableEq

/-- Whether an effect call is a run of `_4A7688_fireball_collision_particle`. -/
def SpriteFxCall.isFireball : SpriteFxCall → Bool
  | ._4A7688_fireball_collision_particle _ => true
  | _ => false

/-- What `RenderAsSprite` needs from outside the fireball impact case: the colour
`colorTable.OrangeyRed`, and the value the other cases of the `switch` return. None of the
other cases reads or writes `field_204`. -/
structure SpriteFxEnv where
  OrangeyRed : Color
  otherCases : SpriteObject → Bool

/-- `SpellFxRenderer::RenderAsSprite(a2)`: the returned flag, the renderer as the call
leaves it and the effect calls it makes, in order. The case
`SPRITE_SPELL_FIRE_FIREBALL_IMPACT` is translated statement by statement; the other cases
are summarised by `otherCase`. -/
def RenderAsSprite (fx : SpriteFxEnv) (a2 : SpriteObject) (s : SpellFxRenderer) :
    Bool × SpellFxRenderer × List SpriteFxCall :=
  match a2.uType with
  | .SPRITE_SPELL_FIRE_FIREBALL_IMPACT =>
    let light := SpriteFxCall.AddMobileLight a2 fx.OrangeyRed 256
    if a2.spell_caster_pid_type ≠ ObjectType.OBJECT_Sprite then
      if s.field_204 ≠ 4 then
        (true, { s with field_204 := s.field_204 + 1 },
          [light, SpriteFxCall._4A7688_fireball_collision_particle a2])
      else (true, s, [light])
    else (true, s, [light])
  | .other _ => (fx.otherCases a2, s, [SpriteFxCall.otherCase a2])

/-- A sequence of `RenderAsSprite` calls, one for each listed sprite, in order: the
renderer after the last call and all effect calls made. -/
def renderSprites (fx : SpriteFxEnv) (sprites : List SpriteObject) (s : SpellFxRenderer) :
    SpellFxRenderer × List SpriteFxCall :=
  sprites.foldl
    (fun st a2 => ((RenderAsSprite fx a2 st.1).2.1, st.2 ++ (RenderAsSprite fx a2 st.1).2.2))
    (s, [])

/-- Number of runs of `_4A7688_fireball_collision_particle` among effect calls. -/
def countFireball (calls : List SpriteFxCall) : Nat :=
  (calls.filter SpriteFxCall.isFireball).length

/-- An environment for examples: the other cases return false. -/
def demoSpriteFx : SpriteFxEnv :=
  ⟨⟨255, 69, 0, 255⟩, fun _ => false⟩

/-- A fireball impact sprite cast by something that is not a sprite object. -/
def fireballImpact (index : Nat) : SpriteObject :=
  ⟨index, SpriteId.SPRITE_SPELL_FIRE_FIREBALL_IMPACT, ObjectType.other 3⟩

/-! ## Theorems -/

/-! ### Loops -/

theorem forLoop_zero {σ : Type} (body : Nat → σ → σ) (init : σ) :
    forLoop 0 body init = init := by
  simp [forLoop]

theorem forLoop_succ {σ : Type} (n : Nat) (body : Nat → σ → σ) (init : σ) :
    forLoop (n + 1) body init = body n (forLoop n body init) := by
  simp [forLoop, List.range_succ]

/-- A property that holds before the loop and is kept by every iteration holds after it. -/
theorem forLoop_invariant {σ : Type} (P : Nat → σ → Prop) (n : Nat) (body : Nat → σ → σ)
    (init : σ) (h0 : P 0 init)
    (hstep : ∀ i st, i < n → P i st → P (i + 1) (body i st)) :
    P n (forLoop n body init) := by
  induction n with
  | zero => simpa [forLoop_zero] using h0
  | succ k ih =>
    rw [forLoop_succ]
    exact hstep k _ (Nat.lt_succ_self k)
      (ih (fun i st hi hP => hstep i st (Nat.lt_succ_of_lt hi) hP))

/-! ### `ClipProjectileToViewPlane` -/

/-- The result of `ClipProjectileToViewPlane` when the first endpoint is behind the plane
and the second is on or in front of it: the second endpoint is rewritten. -/
theorem clip_first_behind (D : ℚ) (p0 p1 : RenderVertexSoft)
    (h0 : p0.vWorldViewPosition.x < D) (h1 : D ≤ p1.vWorldViewPosition.x) :
    ClipProjectileToViewPlane D p0 p1 =
      ⟨true, p0,
        { p1 with vWorldViewPosition :=
            ⟨D - p1.vWorldViewPosition.x + p1.vWorldViewPosition.x,
             (p0.vWorldViewPosition.y - p1.vWorldViewPosition.y) *
                 (1 / (p0.vWorldViewPosition.x - p1.vWorldViewPosition.x)) *
                 (D - p1.vWorldViewPosition.x) + p1.vWorldViewPosition.y,
             (D - p1.vWorldViewPosition.x) *
                 ((p0.vWorldViewPosition.z - p1.vWorldViewPosition.z) *
                   (1 / (p0.vWorldViewPosition.x - p1.vWorldViewPosition.x))) +
               p1.vWorldViewPosition.z⟩ }⟩ := by
  unfold ClipProjectileToViewPlane
  rcases lt_or_eq_of_le h1 with h | h
  · simp [h0, h]
  · simp [h0, h]

/-- The result of `ClipProjectileToViewPlane` when the first endpoint is on or in front of
the plane and the second is behind it: the first endpoint is rewritten. -/
theorem clip_second_behind (D : ℚ) (p0 p1 : RenderVertexSoft)
    (h0 : D ≤ p0.vWorldViewPosition.x) (h1 : p1.vWorldViewPosition.x < D) :
    ClipProjectileToViewPlane D p0 p1 =
      ⟨true,
        { p0 with vWorldViewPosition :=
            ⟨D - p0.vWorldViewPosition.x + p0.vWorldViewPosition.x,
             (p1.vWorldViewPosition.y - p0.vWorldViewPosition.y) *
                 (1 / (p1.vWorldViewPosition.x - p0.vWorldViewPosition.x)) *
                 (D - p0.vWorldViewPosition.x) + p0.vWorldViewPosition.y,
             (D - p0.vWorldViewPosition.x) *
                 ((p1.vWorldViewPosition.z - p0.vWorldViewPosition.z) *
                   (1 / (p1.vWorldViewPosition.x - p0.vWorldViewPosition.x))) +
               p0.vWorldViewPosition.z⟩ },
        p1⟩ := by
  unfold ClipProjectileToViewPlane
  simp [not_lt.mpr h0, not_lt.mpr h1.le, h1.ne']

/-- C1: `ClipProjectileToViewPlane` returns false if and only if both endpoints are strictly
behind the view plane (`p[0].x < D` and `p[1].x < D`); in every other case it returns
true. -/
theorem clip_ret_false_iff_both_behind (D : ℚ) (p0 p1 : RenderVertexSoft) :
    ((ClipProjectileToViewPlane D p0 p1).ret = false ↔
        (p0.vWorldViewPosition.x < D ∧ p1.vWorldViewPosition.x < D)) ∧
      ((ClipProjectileToViewPlane D p0 p1).ret = true ↔
        ¬ (p0.vWorldViewPosition.x < D ∧ p1.vWorldViewPosition.x < D)) := by
  unfold ClipProjectileToViewPlane
  by_cases h0 : p0.vWorldViewPosition.x < D <;>
    rcases lt_trichotomy D p1.vWorldViewPosition.x with h1 | h1 | h1
  · simp [h0, h1, not_lt.mpr h1.le]
  · simp [h0, h1]
  · simp [h0, h1, not_lt.mpr h1.le, h1.ne, h1.ne.symm]
  · simp [h0, h1, not_lt.mpr h1.le]
  · simp [h0, h1]
  · simp [h0, h1, not_lt.mpr h1.le, h1.ne, h1.ne.symm]

/-- C2 (evaluation at the failing input): with the view plane at `D = 5`, the first endpoint
behind it at `x = 0` and the second in front at `x = 10`, `ClipProjectileToViewPlane`
returns true, moves the second (visible) endpoint onto the plane and leaves the first
endpoint where it was, behind the plane: what remains is the hidden portion of the
projectile. The mirrored input behaves the same way. -/
theorem clip_one_behind_keeps_hidden_endpoint :
    (ClipProjectileToViewPlane 5 (viewVertex 0 0 0) (viewVertex 10 0 0)).ret = true ∧
    (ClipProjectileToViewPlane 5 (viewVertex 0 0 0) (viewVertex 10 0 0)).p0 = viewVertex 0 0 0 ∧
    (ClipProjectileToViewPlane 5 (viewVertex 0 0 0) (viewVertex 10 0 0)).p1 = viewVertex 5 0 0 ∧
    (ClipProjectileToViewPlane 5 (viewVertex 0 0 0)
      (viewVertex 10 0 0)).p0.vWorldViewPosition.x < 5 ∧
    (ClipProjectileToViewPlane 5 (viewVertex 10 0 0) (viewVertex 0 0 0)).ret = true ∧
    (ClipProjectileToViewPlane 5 (viewVertex 10 0 0) (viewVertex 0 0 0)).p0 = viewVertex 5 0 0 ∧
    (ClipProjectileToViewPlane 5 (viewVertex 10 0 0) (viewVertex 0 0 0)).p1 = viewVertex 0 0 0 ∧
    (ClipProjectileToViewPlane 5 (viewVertex 10 0 0)
      (viewVertex 0 0 0)).p1.vWorldViewPosition.x < 5 := by
  simp [ClipProjectileToViewPlane, viewVertex]
  norm_num

/-- C3: when exactly one endpoint is behind the view plane, the divisor `p[0].x - p[1].x`
is non-zero, the endpoint the function moves (the second one when the first is behind, the
first one otherwise) ends with `x` exactly `D`, its new position is the point
`lerp` of the straight line through the two original endpoints at parameter
`(D - x_moved) / (x_other - x_moved)`, and the other endpoint is untouched. -/
theorem clip_moved_endpoint_interpolated (D : ℚ) (p0 p1 : RenderVertexSoft)
    (h : (p0.vWorldViewPosition.x < D ∧ D ≤ p1.vWorldViewPosition.x) ∨
      (D ≤ p0.vWorldViewPosition.x ∧ p1.vWorldViewPosition.x < D)) :
    p0.vWorldViewPosition.x - p1.vWorldViewPosition.x ≠ 0 ∧
    p1.vWorldViewPosition.x - p0.vWorldViewPosition.x ≠ 0 ∧
    (p0.vWorldViewPosition.x < D →
      (ClipProjectileToViewPlane D p0 p1).p0 = p0 ∧
      (ClipProjectileToViewPlane D p0 p1).p1.vWorldViewPosition.x = D ∧
      (ClipProjectileToViewPlane D p0 p1).p1.vWorldViewPosition =
        lerp p1.vWorldViewPosition p0.vWorldViewPosition
          ((D - p1.vWorldViewPosition.x) /
            (p0.vWorldViewPosition.x - p1.vWorldViewPosition.x))) ∧
    (D ≤ p0.vWorldViewPosition.x →
      (ClipProjectileToViewPlane D p0 p1).p1 = p1 ∧
      (ClipProjectileToViewPlane D p0 p1).p0.vWorldViewPosition.x = D ∧
      (ClipProjectileToViewPlane D p0 p1).p0.vWorldViewPosition =
        lerp p0.vWorldViewPosition p1.vWorldViewPosition
          ((D - p0.vWorldViewPosition.x) /
            (p1.vWorldViewPosition.x - p0.vWorldViewPosition.x))) := by
  have hne : p0.vWorldViewPosition.x - p1.vWorldViewPosition.x ≠ 0 := by
    rcases h with ⟨h0, h1⟩ | ⟨h0, h1⟩
    · exact sub_ne_zero.mpr (ne_of_lt (lt_of_lt_of_le h0 h1))
    · exact sub_ne_zero.mpr (ne_of_gt (lt_of_lt_of_le h1 h0))
  have hne2 : p1.vWorldViewPosition.x - p0.vWorldViewPosition.x ≠ 0 := by
    intro h2
    apply hne
    linarith
  refine ⟨hne, hne2, ?_, ?_⟩
  · intro h0
    have h1 : D ≤ p1.vWorldViewPosition.x := by
      rcases h with ⟨_, h1⟩ | ⟨h0b, _⟩
      · exact h1
      · exact absurd h0 (not_lt.mpr h0b)
    rw [clip_first_behind D p0 p1 h0 h1]
    refine ⟨rfl, by simp, ?_⟩
    simp only [lerp, Vec3f.mk.injEq]
    refine ⟨?_, ?_, ?_⟩ <;> field_simp <;> ring
  · intro h0
    have h1 : p1.vWorldViewPosition.x < D := by
      rcases h with ⟨h0b, _⟩ | ⟨_, h1⟩
      · exact absurd h0b (not_lt.mpr h0)
      · exact h1
    rw [clip_second_behind D p0 p1 h0 h1]
    refine ⟨rfl, by simp, ?_⟩
    simp only [lerp, Vec3f.mk.injEq]
    refine ⟨?_, ?_, ?_⟩ <;> field_simp <;> ring

/-- C3 at a concrete input: the plane at `D = 5`, the endpoints at `x = 0` and `x = 10`. -/
theorem clip_moved_endpoint_interpolated_witness :
    (viewVertex 0 1 2).vWorldViewPosition.x - (viewVertex 10 3 6).vWorldViewPosition.x ≠ 0 ∧
    (ClipProjectileToViewPlane 5 (viewVertex 0 1 2) (viewVertex 10 3 6)).p1.vWorldViewPosition.x
      = 5 :=
  have h := clip_moved_endpoint_interpolated 5 (viewVertex 0 1 2) (viewVertex 10 3 6)
    (Or.inl ⟨by norm_num [viewVertex], by norm_num [viewVertex]⟩)
  ⟨h.1, (h.2.2.1 (by norm_num [viewVertex])).2.1⟩

/-- C4: when both endpoints are on or in front of the view plane, and when both are strictly
behind it, `ClipProjectileToViewPlane` leaves both vertices unchanged; for every input at
most one of the two vertices is modified. -/
theorem clip_modifies_only_as_needed (D : ℚ) (p0 p1 : RenderVertexSoft) :
    ((D ≤ p0.vWorldViewPosition.x ∧ D ≤ p1.vWorldViewPosition.x) ∨
        (p0.vWorldViewPosition.x < D ∧ p1.vWorldViewPosition.x < D) →
      (ClipProjectileToViewPlane D p0 p1).p0 = p0 ∧
        (ClipProjectileToViewPlane D p0 p1).p1 = p1) ∧
    ((ClipProjectileToViewPlane D p0 p1).p0 = p0 ∨
      (ClipProjectileToViewPlane D p0 p1).p1 = p1) := by
  unfold ClipProjectileToViewPlane
  by_cases h0 : p0.vWorldViewPosition.x < D <;>
    rcases lt_trichotomy D p1.vWorldViewPosition.x with h1 | h1 | h1
  · simp [h0, h1, not_lt.mpr h1.le, not_le.mpr h0]
  · simp [h0, h1]
  · simp [h0, h1, not_lt.mpr h1.le, h1.ne, h1.ne.symm]
  · simp [h0, h1, not_lt.mpr h1.le]
  · simp [h0, h1]
  · simp [h0, h1, not_lt.mpr h1.le, h1.ne, h1.ne.symm, not_le.mpr h1]

/-- C4 at concrete inputs: both endpoints in front of the plane `D = 5`. -/
theorem clip_modifies_only_as_needed_witness :
    (ClipProjectileToViewPlane 5 (viewVertex 7 1 2) (viewVertex 10 3 6)).p0 = viewVertex 7 1 2 ∧
    (ClipProjectileToViewPlane 5 (viewVertex 7 1 2) (viewVertex 10 3 6)).p1 = viewVertex 10 3 6 :=
  (clip_modifies_only_as_needed 5 (viewVertex 7 1 2) (viewVertex 10 3 6)).1
    (Or.inl ⟨by norm_num [viewVertex], by norm_num [viewVertex]⟩)

/-! ### `DrawProjectiles` and the projectile queue -/

/-- The calls of `DrawProjectiles` are the loop iterations of the queued projectiles, in
queue order. -/
theorem drawProjectiles_eq_map (cam : Camera3D) (s : SpellFxRenderer) :
    DrawProjectiles cam s =
      (List.range s.uNumProjectiles.toNat).map
        (fun i => DrawProjectiles.iteration cam (s.pProjectiles i)) := by
  unfold DrawProjectiles
  generalize s.uNumProjectiles.toNat = n
  induction n with
  | zero => simp [forLoop_zero]
  | succ k ih => rw [forLoop_succ, ih, List.range_succ, List.map_append]; rfl

theorem iteration_isDrawProjectile (cam : Camera3D) (p : ProjectileAnim) :
    (DrawProjectiles.iteration cam p).isDrawProjectile = true := rfl

theorem filter_drawProjectiles (cam : Camera3D) (s : SpellFxRenderer) :
    (DrawProjectiles cam s).filter RenderCall.isDrawProjectile = DrawProjectiles cam s := by
  rw [List.filter_eq_self, drawProjectiles_eq_map]
  intro c hc
  rcases List.mem_map.mp hc with ⟨i, _, rfl⟩
  exact iteration_isDrawProjectile cam _

theorem filter_fade_calls (env : Env) (s : SpellFxRenderer) :
    (RenderSpecialEffects.fade env s).2.filter RenderCall.isDrawProjectile = [] := by
  unfold RenderSpecialEffects.fade
  split <;> simp [RenderCall.isDrawProjectile]

theorem filter_prismatic_calls (env : Env) (s : SpellFxRenderer) :
    (RenderSpecialEffects.prismatic env s).2.filter RenderCall.isDrawProjectile = [] := by
  unfold RenderSpecialEffects.prismatic
  split <;> simp [RenderCall.isDrawProjectile]

/-- The `DrawProjectile` calls of a frame are those of its projectile block. -/
theorem filter_renderSpecialEffects (env : Env) (s : SpellFxRenderer) :
    (RenderSpecialEffects env s).2.filter RenderCall.isDrawProjectile =
      DrawProjectiles env.camera s := by
  simp only [RenderSpecialEffects, List.filter_append, filter_fade_calls,
    filter_prismatic_calls, List.append_nil]
  unfold RenderSpecialEffects.projectiles
  by_cases h : s.uNumProjectiles = 0
  · simp [h, drawProjectiles_eq_map]
  · simp [h, filter_drawProjectiles]

theorem fade_uNumProjectiles (env : Env) (s : SpellFxRenderer) :
    (RenderSpecialEffects.fade env s).1.uNumProjectiles = s.uNumProjectiles ∧
      (RenderSpecialEffects.fade env s).1.field_204 = s.field_204 := by
  unfold RenderSpecialEffects.fade
  split <;> simp

theorem prismatic_uNumProjectiles (env : Env) (s : SpellFxRenderer) :
    (RenderSpecialEffects.prismatic env s).1.uNumProjectiles = s.uNumProjectiles ∧
      (RenderSpecialEffects.prismatic env s).1.field_204 = s.field_204 := by
  unfold RenderSpecialEffects.prismatic
  split <;> simp

theorem renderSpecialEffects_uNumProjectiles (env : Env) (s : SpellFxRenderer) :
    (RenderSpecialEffects env s).1.uNumProjectiles = 0 ∧
      (RenderSpecialEffects env s).1.field_204 = 0 := by
  simp only [RenderSpecialEffects, prismatic_uNumProjectiles, fade_uNumProjectiles]
  unfold RenderSpecialEffects.projectiles
  by_cases h : s.uNumProjectiles = 0 <;> simp [h]

/-- C5 (evaluation at the failing input): with the view plane at `D = 5` and one queued
projectile whose endpoints are at view-space `x = 1` and `x = 2`, both behind the plane,
`ClipProjectileToViewPlane` returns false, yet `DrawProjectiles` passes the projectile to
`render->DrawProjectile`. -/
theorem drawProjectiles_draws_rejected_projectile :
    (ClipProjectileToViewPlane 5
      ((identityCamera 5).viewTransformVertex ⟨⟨1, 0, 0⟩, ⟨0, 0, 0⟩, 0, 0⟩)
      ((identityCamera 5).viewTransformVertex ⟨⟨2, 0, 0⟩, ⟨0, 0, 0⟩, 0, 0⟩)).ret = false ∧
    DrawProjectiles (identityCamera 5) oneProjectileRenderer =
      [RenderCall.DrawProjectile 0 0 1 100 0 0 2 50 7] := by
  constructor
  · simp [ClipProjectileToViewPlane, Camera3D.viewTransformVertex, identityCamera]
    norm_num
  · rw [drawProjectiles_eq_map]
    simp [oneProjectileRenderer, idleRenderer, DrawProjectiles.iteration,
      ClipProjectileToViewPlane, Camera3D.viewTransformVertex, Camera3D.projectVertex,
      identityCamera]
    norm_num

/-- C8: for a renderer with `uNumProjectiles ≤ 32`, `RenderSpecialEffects` makes exactly
`uNumProjectiles` calls of `render->DrawProjectile` (none when the counter is not
positive), and call `i` is the one for the projectile in slot `i`: with `C` the result of
`ClipProjectileToViewPlane` on the view-transformed source and destination of that
projectile, the call passes the projection and the view-space `x` of `C.p0`, then those of
`C.p1`, and the texture of slot `i`; each width scale is `ViewPlaneDistPixels / x * 20`
where the view-space `x` it divides by is not zero. The call leaves `uNumProjectiles = 0`
and `field_204 = 0`, and the next `RenderSpecialEffects` (with any environment) makes no
`DrawProjectile` call. -/
theorem renderSpecialEffects_flushes_projectiles (env : Env) (s : SpellFxRenderer)
    (h : s.uNumProjectiles ≤ 32) :
    ((RenderSpecialEffects env s).2.filter RenderCall.isDrawProjectile).length =
        s.uNumProjectiles.toNat ∧
      ((RenderSpecialEffects env s).2.filter RenderCall.isDrawProjectile).length ≤ 32 ∧
      (∀ i, i < s.uNumProjectiles.toNat → ∀ C : ClipResult,
        C = ClipProjectileToViewPlane env.camera.ViewPlaneDistPixels
            ⟨⟨(s.pProjectiles i).srcX, (s.pProjectiles i).srcY, (s.pProjectiles i).srcZ⟩,
              env.camera.ViewTransform
                ⟨(s.pProjectiles i).srcX, (s.pProjectiles i).srcY, (s.pProjectiles i).srcZ⟩,
              0, 0⟩
            ⟨⟨(s.pProjectiles i).dstX, (s.pProjectiles i).dstY, (s.pProjectiles i).dstZ⟩,
              env.camera.ViewTransform
                ⟨(s.pProjectiles i).dstX, (s.pProjectiles i).dstY, (s.pProjectiles i).dstZ⟩,
              0, 0⟩ →
        ∃ srcWidthScale dstWidthScale : ℚ,
          ((RenderSpecialEffects env s).2.filter RenderCall.isDrawProjectile).get? i =
              some (RenderCall.DrawProjectile
                (env.camera.Project C.p0.vWorldViewPosition).1
                (env.camera.Project C.p0.vWorldViewPosition).2
                C.p0.vWorldViewPosition.x srcWidthScale
                (env.camera.Project C.p1.vWorldViewPosition).1
                (env.camera.Project C.p1.vWorldViewPosition).2
                C.p1.vWorldViewPosition.x dstWidthScale
                (s.pProjectiles i).texture) ∧
            (C.p0.vWorldViewPosition.x ≠ 0 →
              srcWidthScale =
                env.camera.ViewPlaneDistPixels / C.p0.vWorldViewPosition.x * 20) ∧
            (C.p1.vWorldViewPosition.x ≠ 0 →
              dstWidthScale =
                env.camera.ViewPlaneDistPixels / C.p1.vWorldViewPosition.x * 20)) ∧
      (RenderSpecialEffects env s).1.uNumProjectiles = 0 ∧
      (RenderSpecialEffects env s).1.field_204 = 0 ∧
      ∀ env2 : Env,
        (RenderSpecialEffects env2 (RenderSpecialEffects env s).1).2.filter
          RenderCall.isDrawProjectile = [] := by
  refine ⟨?_, ?_, ?_, (renderSpecialEffects_uNumProjectiles env s).1,
    (renderSpecialEffects_uNumProjectiles env s).2, ?_⟩
  · rw [filter_renderSpecialEffects, drawProjectiles_eq_map]
    simp only [List.length_map, List.length_range]
  · rw [filter_renderSpecialEffects, drawProjectiles_eq_map]
    simp only [List.length_map, List.length_range]
    omega
  · intro i hi C hC
    rw [filter_renderSpecialEffects, drawProjectiles_eq_map]
    refine ⟨env.camera.ViewPlaneDistPixels / C.p0.vWorldViewPosition.x * 20,
      env.camera.ViewPlaneDistPixels / C.p1.vWorldViewPosition.x * 20, ?_,
      fun _ => rfl, fun _ => rfl⟩
    rw [List.get?_eq_getElem?, List.getElem?_map, List.getElem?_range hi, hC]
    rfl
  · intro env2
    rw [filter_renderSpecialEffects, drawProjectiles_eq_map,
      (renderSpecialEffects_uNumProjectiles env s).1]
    simp

/-- C8 at a concrete input: one queued projectile, from `(1, 0, 0)` to `(2, 0, 0)` with
texture 7, seen through the identity camera with the view plane at 5: the frame makes one
`DrawProjectile` call, it carries the view-space `x` of both endpoints and texture 7, and
the queue is empty afterwards. -/
theorem renderSpecialEffects_flushes_projectiles_witness :
    ((RenderSpecialEffects (frameEnv 1) oneProjectileRenderer).2.filter
        RenderCall.isDrawProjectile).length = 1 ∧
      (∃ srcWidthScale dstWidthScale : ℚ,
        ((RenderSpecialEffects (frameEnv 1) oneProjectileRenderer).2.filter
            RenderCall.isDrawProjectile).get? 0 =
          some (RenderCall.DrawProjectile 0 0 1 srcWidthScale 0 0 2 dstWidthScale 7)) ∧
      (RenderSpecialEffects (frameEnv 1) oneProjectileRenderer).1.uNumProjectiles = 0 :=
  have h := renderSpecialEffects_flushes_projectiles (frameEnv 1) oneProjectileRenderer
    (by simp [oneProjectileRenderer])
  have hC : ClipProjectileToViewPlane 5 ⟨⟨1, 0, 0⟩, ⟨1, 0, 0⟩, 0, 0⟩ ⟨⟨2, 0, 0⟩, ⟨2, 0, 0⟩, 0, 0⟩ =
      ⟨false, ⟨⟨1, 0, 0⟩, ⟨1, 0, 0⟩, 0, 0⟩, ⟨⟨2, 0, 0⟩, ⟨2, 0, 0⟩, 0, 0⟩⟩ := by
    simp [ClipProjectileToViewPlane]
    norm_num
  ⟨h.1,
    match h.2.2.1 0 (by simp [oneProjectileRenderer])
      ⟨false, ⟨⟨1, 0, 0⟩, ⟨1, 0, 0⟩, 0, 0⟩, ⟨⟨2, 0, 0⟩, ⟨2, 0, 0⟩, 0, 0⟩⟩ hC.symm with
    | ⟨a, b, hcall, _, _⟩ => ⟨a, b, hcall⟩,
    h.2.2.2.1⟩

/-! ### The screen fade -/

theorem projectiles_fade_fields (env : Env) (s : SpellFxRenderer) :
    (RenderSpecialEffects.projectiles env s).1.uFadeTime = s.uFadeTime ∧
      (RenderSpecialEffects.projectiles env s).1.uFadeLength = s.uFadeLength ∧
      (RenderSpecialEffects.projectiles env s).1.uFadeColor = s.uFadeColor := by
  unfold RenderSpecialEffects.projectiles
  by_cases h : s.uNumProjectiles = 0 <;> simp [h]

theorem prismatic_fade_fields (env : Env) (s : SpellFxRenderer) :
    (RenderSpecialEffects.prismatic env s).1.uFadeTime = s.uFadeTime ∧
      (RenderSpecialEffects.prismatic env s).1.uFadeLength = s.uFadeLength ∧
      (RenderSpecialEffects.prismatic env s).1.uFadeColor = s.uFadeColor := by
  unfold RenderSpecialEffects.prismatic
  split <;> simp

theorem countScreenFade_projectiles (env : Env) (s : SpellFxRenderer) :
    countScreenFade (RenderSpecialEffects.projectiles env s).2 = 0 := by
  unfold RenderSpecialEffects.projectiles countScreenFade
  by_cases h : s.uNumProjectiles = 0
  · simp [h]
  · simp only [h, ne_eq, not_false_eq_true, if_true, List.length_eq_zero, List.filter_eq_nil_iff,
      drawProjectiles_eq_map]
    intro c hc
    rcases List.mem_map.mp hc with ⟨i, _, rfl⟩
    simp [DrawProjectiles.iteration, RenderCall.isScreenFade]

theorem countScreenFade_prismatic (env : Env) (s : SpellFxRenderer) :
    countScreenFade (RenderSpecialEffects.prismatic env s).2 = 0 := by
  unfold RenderSpecialEffects.prismatic countScreenFade
  split <;> simp [RenderCall.isScreenFade]

theorem countScreenFade_append (l1 l2 : List RenderCall) :
    countScreenFade (l1 ++ l2) = countScreenFade l1 + countScreenFade l2 := by
  simp [countScreenFade, List.filter_append]

/-- The `ScreenFade` calls of a frame are those of its fade block. -/
theorem countScreenFade_renderSpecialEffects (env : Env) (s : SpellFxRenderer) :
    countScreenFade (RenderSpecialEffects env s).2 = if 0 < s.uFadeTime then 1 else 0 := by
  simp only [RenderSpecialEffects, countScreenFade_append, countScreenFade_projectiles,
    countScreenFade_prismatic, Nat.zero_add, Nat.add_zero]
  unfold RenderSpecialEffects.fade
  rw [(projectiles_fade_fields env s).1]
  by_cases h : 0 < s.uFadeTime <;> simp [h, countScreenFade, RenderCall.isScreenFade]

/-- The fade fields after one frame. -/
theorem renderSpecialEffects_fade_fields (env : Env) (s : SpellFxRenderer) :
    (RenderSpecialEffects env s).1.uFadeTime =
        (if 0 < s.uFadeTime then s.uFadeTime - env.dt else s.uFadeTime) ∧
      (RenderSpecialEffects env s).1.uFadeLength = s.uFadeLength ∧
      (RenderSpecialEffects env s).1.uFadeColor = s.uFadeColor := by
  simp only [RenderSpecialEffects, prismatic_fade_fields]
  unfold RenderSpecialEffects.fade
  by_cases h : 0 < s.uFadeTime <;>
    simp [h, (projectiles_fade_fields env s).1, (projectiles_fade_fields env s).2.1,
      (projectiles_fade_fields env s).2.2]

/-- With a constant positive timer step, the remaining fade time after `k` frames of a
fade of length `T` is `T - min k ⌈T / dt⌉ * dt`. -/
theorem renderFrames_uFadeTime (env : Env) (s : SpellFxRenderer) (color : Color) (T : Int)
    (hT : 0 < T) (hdt : 0 < env.dt) (k : Nat) :
    (renderFrames env k
        (FadeScreen__like_Turn_Undead_and_mb_Armageddon color T s)).uFadeTime =
      T - min (k : Int) ⌈(T : ℚ) / (env.dt : ℚ)⌉ * env.dt := by
  have hdq : (0 : ℚ) < (env.dt : ℚ) := by exact_mod_cast hdt
  have hup : T ≤ ⌈(T : ℚ) / (env.dt : ℚ)⌉ * env.dt := by
    have h1 : (T : ℚ) / (env.dt : ℚ) ≤ ((⌈(T : ℚ) / (env.dt : ℚ)⌉ : Int) : ℚ) := Int.le_ceil _
    have h2 : (T : ℚ) ≤ ((⌈(T : ℚ) / (env.dt : ℚ)⌉ : Int) : ℚ) * (env.dt : ℚ) :=
      (div_le_iff₀ hdq).mp h1
    exact_mod_cast h2
  have hlow : ∀ z : Int, z < ⌈(T : ℚ) / (env.dt : ℚ)⌉ → z * env.dt < T := by
    intro z hz
    have h1 : (z : ℚ) < (T : ℚ) / (env.dt : ℚ) := Int.lt_ceil.mp hz
    have h2 : (z : ℚ) * (env.dt : ℚ) < (T : ℚ) := (lt_div_iff₀ hdq).mp h1
    exact_mod_cast h2
  have hpos : (0 : Int) < ⌈(T : ℚ) / (env.dt : ℚ)⌉ := by
    apply Int.lt_ceil.mpr
    have hTq : (0 : ℚ) < (T : ℚ) := by exact_mod_cast hT
    simpa using div_pos hTq hdq
  induction k with
  | zero =>
    simp only [renderFrames, FadeScreen__like_Turn_Undead_and_mb_Armageddon]
    simp [min_eq_left hpos.le]
  | succ j ih =>
    simp only [renderFrames]
    rw [(renderSpecialEffects_fade_fields env _).1, ih]
    by_cases hj : (j : Int) < ⌈(T : ℚ) / (env.dt : ℚ)⌉
    · have h1 := hlow j hj
      have hm : min (j : Int) ⌈(T : ℚ) / (env.dt : ℚ)⌉ = j := min_eq_left hj.le
      have hm2 : min ((j + 1 : Nat) : Int) ⌈(T : ℚ) / (env.dt : ℚ)⌉ = (j : Int) + 1 := by
        push_cast
        exact min_eq_left (by omega)
      rw [hm, hm2, if_pos (by linarith)]
      ring
    · have hj2 : ⌈(T : ℚ) / (env.dt : ℚ)⌉ ≤ (j : Int) := not_lt.mp hj
      have hm : min (j : Int) ⌈(T : ℚ) / (env.dt : ℚ)⌉ = ⌈(T : ℚ) / (env.dt : ℚ)⌉ :=
        min_eq_right hj2
      have hm2 : min ((j + 1 : Nat) : Int) ⌈(T : ℚ) / (env.dt : ℚ)⌉ =
          ⌈(T : ℚ) / (env.dt : ℚ)⌉ := by
        push_cast
        exact min_eq_right (by omega)
      rw [hm, hm2, if_neg (by linarith)]

/-- C9: every `RenderSpecialEffects` call (any state, any timer step) calls
`render->ScreenFade` exactly once when the remaining `uFadeTime` is positive, and then
subtracts the timer step from `uFadeTime`; when `uFadeTime ≤ 0` it draws no fade and leaves
`uFadeTime` as it is; `uFadeLength` and `uFadeColor` are never changed. After
`FadeScreen__like_Turn_Undead_and_mb_Armageddon(color, T)` with `T > 0` and with a constant
timer step `dt > 0`, frame `k` (counted from 0) draws the fade exactly when
`k < ⌈T / dt⌉`: the fade is drawn on the first `⌈T / dt⌉` frames and on no later one. -/
theorem fade_drawn_for_ceil_frames (env : Env) (s : SpellFxRenderer) (color : Color) (T : Int)
    (hT : 0 < T) :
    (∀ (env2 : Env) (s2 : SpellFxRenderer),
      (0 < s2.uFadeTime →
        countScreenFade (RenderSpecialEffects env2 s2).2 = 1 ∧
          (RenderSpecialEffects env2 s2).1.uFadeTime = s2.uFadeTime - env2.dt) ∧
      (s2.uFadeTime ≤ 0 →
        countScreenFade (RenderSpecialEffects env2 s2).2 = 0 ∧
          (RenderSpecialEffects env2 s2).1.uFadeTime = s2.uFadeTime) ∧
      (RenderSpecialEffects env2 s2).1.uFadeLength = s2.uFadeLength ∧
      (RenderSpecialEffects env2 s2).1.uFadeColor = s2.uFadeColor) ∧
    (FadeScreen__like_Turn_Undead_and_mb_Armageddon color T s).uFadeTime = T ∧
    (FadeScreen__like_Turn_Undead_and_mb_Armageddon color T s).uFadeLength = T ∧
    (FadeScreen__like_Turn_Undead_and_mb_Armageddon color T s).uFadeColor = color ∧
    (0 < env.dt → ∀ k : Nat,
      countScreenFade (RenderSpecialEffects env (renderFrames env k
          (FadeScreen__like_Turn_Undead_and_mb_Armageddon color T s))).2 =
        if (k : Int) < ⌈(T : ℚ) / (env.dt : ℚ)⌉ then 1 else 0) := by
  refine ⟨?_, rfl, rfl, rfl, ?_⟩
  · intro env2 s2
    have hf := renderSpecialEffects_fade_fields env2 s2
    have hc := countScreenFade_renderSpecialEffects env2 s2
    refine ⟨?_, ?_, hf.2.1, hf.2.2⟩
    · intro h
      rw [hc, hf.1, if_pos h, if_pos h]
      exact ⟨rfl, rfl⟩
    · intro h
      rw [hc, hf.1, if_neg (not_lt.mpr h), if_neg (not_lt.mpr h)]
      exact ⟨rfl, rfl⟩
  · intro hdt k
    rw [countScreenFade_renderSpecialEffects, renderFrames_uFadeTime env s color T hT hdt k]
    have hdq : (0 : ℚ) < (env.dt : ℚ) := by exact_mod_cast hdt
    by_cases hk : (k : Int) < ⌈(T : ℚ) / (env.dt : ℚ)⌉
    · have h1 : (k : ℚ) < (T : ℚ) / (env.dt : ℚ) := by
        have := Int.lt_ceil.mp hk
        exact_mod_cast this
      have h2 : (k : ℚ) * (env.dt : ℚ) < (T : ℚ) := (lt_div_iff₀ hdq).mp h1
      have h3 : (k : Int) * env.dt < T := by exact_mod_cast h2
      rw [min_eq_left hk.le, if_pos hk, if_pos (by linarith)]
    · have h1 : (T : ℚ) / (env.dt : ℚ) ≤ ((⌈(T : ℚ) / (env.dt : ℚ)⌉ : Int) : ℚ) :=
        Int.le_ceil _
      have h2 : (T : ℚ) ≤ ((⌈(T : ℚ) / (env.dt : ℚ)⌉ : Int) : ℚ) * (env.dt : ℚ) :=
        (div_le_iff₀ hdq).mp h1
      have h3 : T ≤ ⌈(T : ℚ) / (env.dt : ℚ)⌉ * env.dt := by exact_mod_cast h2
      rw [min_eq_right (not_lt.mp hk), if_neg hk, if_neg (by linarith)]

/-- C9 at a concrete input: a fade of 10 ticks with a timer step of 4 ticks is drawn on
frame 2 (the third frame) and not on frame 3. -/
theorem fade_drawn_for_ceil_frames_witness :
    countScreenFade (RenderSpecialEffects (frameEnv 4) (renderFrames (frameEnv 4) 2
      (FadeScreen__like_Turn_Undead_and_mb_Armageddon ⟨255, 0, 0, 255⟩ 10 idleRenderer))).2 = 1 ∧
    countScreenFade (RenderSpecialEffects (frameEnv 4) (renderFrames (frameEnv 4) 3
      (FadeScreen__like_Turn_Undead_and_mb_Armageddon ⟨255, 0, 0, 255⟩ 10 idleRenderer))).2 = 0 :=
  have h := (fade_drawn_for_ceil_frames (frameEnv 4) idleRenderer ⟨255, 0, 0, 255⟩ 10
    (by decide)).2.2.2.2 (by decide)
  have hc : ⌈((10 : Int) : ℚ) / (((frameEnv 4).dt : Int) : ℚ)⌉ = 3 := by
    rw [Int.ceil_eq_iff]
    norm_num [frameEnv]
  ⟨by rw [h 2, hc]; rfl, by rw [h 3, hc]; rfl⟩

/-! ### `DrawPlayerBuffAnims` -/

/-- One iteration of the loop of `DrawPlayerBuffAnims` rewrites slot `i` as `buffSlotAfter`
says and appends the calls `buffSlotCalls` lists. -/
theorem drawPlayerBuffAnims_body (env : Env) (i : Nat) (st : SpellFxRenderer × List RenderCall) :
    (DrawPlayerBuffAnims.body env i st).1.pCharacterBuffs =
        Function.update st.1.pCharacterBuffs i (buffSlotAfter env (st.1.pCharacterBuffs i)) ∧
      (DrawPlayerBuffAnims.body env i st).2 =
        st.2 ++ buffSlotCalls env i (st.1.pCharacterBuffs i) := by
  unfold DrawPlayerBuffAnims.body buffSlotAfter buffSlotCalls
  cases hb : (st.1.pCharacterBuffs i).bRender
  · simp [hb]
  · by_cases ht : (st.1.pCharacterBuffs i).uSpellAnimTimeElapsed + env.dt <
        (st.1.pCharacterBuffs i).uSpellAnimTime
    · simp [hb, ht, not_le.mpr ht]
    · simp [hb, ht, not_lt.mp ht]

/-- The loop of `DrawPlayerBuffAnims` after `n` iterations. -/
theorem drawPlayerBuffAnims_loop (env : Env) (s : SpellFxRenderer) (n : Nat) :
    (∀ i, (forLoop n (DrawPlayerBuffAnims.body env) (s, [])).1.pCharacterBuffs i =
        if i < n then buffSlotAfter env (s.pCharacterBuffs i) else s.pCharacterBuffs i) ∧
      (forLoop n (DrawPlayerBuffAnims.body env) (s, [])).2 =
        ((List.range n).map (fun i => buffSlotCalls env i (s.pCharacterBuffs i))).flatten := by
  induction n with
  | zero => simp [forLoop_zero]
  | succ k ih =>
    rw [forLoop_succ]
    have hb := drawPlayerBuffAnims_body env k (forLoop k (DrawPlayerBuffAnims.body env) (s, []))
    constructor
    · intro i
      rw [hb.1]
      by_cases hik : i = k
      · subst hik
        simp [ih.1]
      · rw [Function.update_noteq hik, ih.1]
        have : (i < k + 1) ↔ (i < k) := by omega
        simp [this]
    · rw [hb.2, ih.2, ih.1 k]
      simp [List.range_succ]

/-- C10: `DrawPlayerBuffAnims` handles each of the four buff slots on its own. A slot with
`bRender` set has the timer step added to `uSpellAnimTimeElapsed`; its icon is drawn (one
`DrawTextureNew` call with the frame for the updated elapsed time) if and only if the
updated elapsed time is strictly less than `uSpellAnimTime`, and otherwise `bRender` is
cleared and nothing is drawn for it. A slot with `bRender` clear is left unchanged and
draws nothing. The calls of the whole function are those of slots 0, 1, 2, 3 in order. -/
theorem drawPlayerBuffAnims_per_slot (env : Env) (s : SpellFxRenderer) :
    (DrawPlayerBuffAnims env s).2 =
        buffSlotCalls env 0 (s.pCharacterBuffs 0) ++ buffSlotCalls env 1 (s.pCharacterBuffs 1) ++
          buffSlotCalls env 2 (s.pCharacterBuffs 2) ++ buffSlotCalls env 3 (s.pCharacterBuffs 3) ∧
    ∀ i, i < 4 →
      ((s.pCharacterBuffs i).bRender = false →
        (DrawPlayerBuffAnims env s).1.pCharacterBuffs i = s.pCharacterBuffs i ∧
          buffSlotCalls env i (s.pCharacterBuffs i) = []) ∧
      ((s.pCharacterBuffs i).bRender = true →
        ((DrawPlayerBuffAnims env s).1.pCharacterBuffs i).uSpellAnimTimeElapsed =
            (s.pCharacterBuffs i).uSpellAnimTimeElapsed + env.dt ∧
          ((DrawPlayerBuffAnims env s).1.pCharacterBuffs i).uSpellAnimTime =
            (s.pCharacterBuffs i).uSpellAnimTime ∧
          ((DrawPlayerBuffAnims env s).1.pCharacterBuffs i).uSpellIconID =
            (s.pCharacterBuffs i).uSpellIconID ∧
          ((s.pCharacterBuffs i).uSpellAnimTimeElapsed + env.dt <
              (s.pCharacterBuffs i).uSpellAnimTime →
            ((DrawPlayerBuffAnims env s).1.pCharacterBuffs i).bRender = true ∧
              buffSlotCalls env i (s.pCharacterBuffs i) =
                [RenderCall.DrawTextureNew ((env.portraitsX i : ℚ) / 640) (385 / 480)
                  (env.animationFrame (s.pCharacterBuffs i).uSpellIconID
                    ((s.pCharacterBuffs i).uSpellAnimTimeElapsed + env.dt))]) ∧
          (¬ ((s.pCharacterBuffs i).uSpellAnimTimeElapsed + env.dt <
              (s.pCharacterBuffs i).uSpellAnimTime) →
            ((DrawPlayerBuffAnims env s).1.pCharacterBuffs i).bRender = false ∧
              buffSlotCalls env i (s.pCharacterBuffs i) = [])) := by
  have hl := drawPlayerBuffAnims_loop env s 4
  constructor
  · unfold DrawPlayerBuffAnims
    rw [hl.2]
    simp [List.range_succ]
  · intro i hi
    have hi4 : (DrawPlayerBuffAnims env s).1.pCharacterBuffs i =
        buffSlotAfter env (s.pCharacterBuffs i) := by
      unfold DrawPlayerBuffAnims
      rw [hl.1 i, if_pos hi]
    rw [hi4]
    constructor
    · intro hb
      simp [buffSlotAfter, buffSlotCalls, hb]
    · intro hb
      refine ⟨by simp [buffSlotAfter, hb], by simp [buffSlotAfter, hb],
        by simp [buffSlotAfter, hb], ?_, ?_⟩
      · intro ht
        simp [buffSlotAfter, buffSlotCalls, hb, ht]
      · intro ht
        simp [buffSlotAfter, buffSlotCalls, hb, ht]

/-- C10 at a concrete input: slot 0 (running, 0 of 100 ticks elapsed, step 20) keeps
rendering, slot 1 (90 of 100 elapsed) expires, slot 2 (idle) is untouched. -/
theorem drawPlayerBuffAnims_per_slot_witness :
    ((DrawPlayerBuffAnims (frameEnv 20) buffRenderer).1.pCharacterBuffs 0).bRender = true ∧
    ((DrawPlayerBuffAnims (frameEnv 20) buffRenderer).1.pCharacterBuffs 1).bRender = false ∧
    (DrawPlayerBuffAnims (frameEnv 20) buffRenderer).1.pCharacterBuffs 2 =
      buffRenderer.pCharacterBuffs 2 :=
  have h := (drawPlayerBuffAnims_per_slot (frameEnv 20) buffRenderer).2
  ⟨((h 0 (by decide)).2 (by simp [buffRenderer])).2.2.2.1
      (by simp [buffRenderer, frameEnv]) |>.1,
    ((h 1 (by decide)).2 (by simp [buffRenderer])).2.2.2.2
      (by simp [buffRenderer, frameEnv]) |>.1,
    ((h 2 (by decide)).1 (by simp [buffRenderer])).1⟩

/-! ### Billboard clipping -/

/-- One iteration of the near-clip loop keeps: every produced vertex has `x ≥ NearClip`, and
the slots from `ProducedVerts` on still hold what `field_B4` held before the call. -/
theorem nearClip_body_invariant (NearClip : ℚ) (field_64 B0 : Nat → local_01) (i : Nat)
    (st : ClipLoopState)
    (h : (∀ j, j < st.ProducedVerts → NearClip ≤ (st.field_B4 j).pos.x) ∧
      (∀ j, st.ProducedVerts ≤ j → st.field_B4 j = B0 j)) :
    (∀ j, j < (SpellFXNearClipAdjust.body NearClip field_64 i st).ProducedVerts →
        NearClip ≤ ((SpellFXNearClipAdjust.body NearClip field_64 i st).field_B4 j).pos.x) ∧
      (∀ j, (SpellFXNearClipAdjust.body NearClip field_64 i st).ProducedVerts ≤ j →
        (SpellFXNearClipAdjust.body NearClip field_64 i st).field_B4 j = B0 j) := by
  obtain ⟨hx, hf⟩ := h
  unfold SpellFXNearClipAdjust.body
  by_cases hn : (field_64 (i + 1)).pos.x ≤ NearClip <;> cases hc : st.currvert <;>
    simp only [hn, hc, decide_True, decide_False, Bool.xor_false, Bool.xor_true, Bool.not_true,
      Bool.not_false, Bool.false_eq_true, if_true, if_false] <;>
    refine ⟨fun j hj => ?_, fun j hj => ?_⟩ <;>
    (try simp only [Function.update_apply]) <;>
    (try split_ifs) <;>
    first
      | exact le_refl _
      | exact le_of_lt (not_le.mp hn)
      | exact hx j (by omega)
      | exact hf j (by omega)
      | (exfalso; omega)

/-- The near-clip loop, run for `n` iterations from an empty output: every produced vertex
has `x ≥ NearClip`, and the slots from `ProducedVerts` on are untouched. -/
theorem nearClip_loop_invariant (NearClip : ℚ) (field_64 B0 : Nat → local_01) (c : Bool)
    (n : Nat) :
    (∀ j, j < (forLoop n (SpellFXNearClipAdjust.body NearClip field_64) ⟨B0, 0, c⟩).ProducedVerts →
        NearClip ≤
          ((forLoop n (SpellFXNearClipAdjust.body NearClip field_64) ⟨B0, 0, c⟩).field_B4 j).pos.x) ∧
      (∀ j, (forLoop n (SpellFXNearClipAdjust.body NearClip field_64) ⟨B0, 0, c⟩).ProducedVerts ≤ j →
        (forLoop n (SpellFXNearClipAdjust.body NearClip field_64) ⟨B0, 0, c⟩).field_B4 j = B0 j) := by
  refine forLoop_invariant
    (fun (_ : Nat) (st : ClipLoopState) =>
      (∀ j, j < st.ProducedVerts → NearClip ≤ (st.field_B4 j).pos.x) ∧
      (∀ j, st.ProducedVerts ≤ j → st.field_B4 j = B0 j))
    n _ _ ⟨fun j hj => absurd hj (Nat.not_lt_zero j), fun j _ => rfl⟩ ?_
  intro i st _ h
  exact nearClip_body_invariant NearClip field_64 B0 i st h

/-- One iteration of the near-clip loop on two states that agree on the produced vertices:
the results agree on the produced vertices again. -/
theorem nearClip_body_agree (NearClip : ℚ) (field_64 : Nat → local_01) (i : Nat)
    (st st2 : ClipLoopState)
    (h : st.ProducedVerts = st2.ProducedVerts ∧ st.currvert = st2.currvert ∧
      ∀ j, j < st.ProducedVerts → st.field_B4 j = st2.field_B4 j) :
    (SpellFXNearClipAdjust.body NearClip field_64 i st).ProducedVerts =
        (SpellFXNearClipAdjust.body NearClip field_64 i st2).ProducedVerts ∧
      (SpellFXNearClipAdjust.body NearClip field_64 i st).currvert =
        (SpellFXNearClipAdjust.body NearClip field_64 i st2).currvert ∧
      ∀ j, j < (SpellFXNearClipAdjust.body NearClip field_64 i st).ProducedVerts →
        (SpellFXNearClipAdjust.body NearClip field_64 i st).field_B4 j =
          (SpellFXNearClipAdjust.body NearClip field_64 i st2).field_B4 j := by
  obtain ⟨B, P, c⟩ := st
  obtain ⟨B2, P2, c2⟩ := st2
  obtain ⟨hp, hc, hb⟩ := h
  simp only at hp hc hb
  subst hp hc
  unfold SpellFXNearClipAdjust.body
  by_cases hn : (field_64 (i + 1)).pos.x ≤ NearClip <;> cases c <;>
    simp only [hn, decide_True, decide_False, Bool.xor_false, Bool.xor_true, Bool.not_true,
      Bool.not_false, Bool.false_eq_true, if_true, if_false, true_and] <;>
    intro j hj <;>
    (try simp only [Function.update_apply]) <;>
    (try split_ifs) <;>
    first
      | rfl
      | exact hb j (by omega)

/-- The near-clip loop produces the same count and the same vertices whatever `field_B4`
held before the call. -/
theorem nearClip_loop_agree (NearClip : ℚ) (field_64 B0 B1 : Nat → local_01) (c : Bool)
    (n : Nat) :
    (forLoop n (SpellFXNearClipAdjust.body NearClip field_64) ⟨B0, 0, c⟩).ProducedVerts =
        (forLoop n (SpellFXNearClipAdjust.body NearClip field_64) ⟨B1, 0, c⟩).ProducedVerts ∧
      (forLoop n (SpellFXNearClipAdjust.body NearClip field_64) ⟨B0, 0, c⟩).currvert =
        (forLoop n (SpellFXNearClipAdjust.body NearClip field_64) ⟨B1, 0, c⟩).currvert ∧
      ∀ j, j < (forLoop n (SpellFXNearClipAdjust.body NearClip field_64) ⟨B0, 0, c⟩).ProducedVerts →
        (forLoop n (SpellFXNearClipAdjust.body NearClip field_64) ⟨B0, 0, c⟩).field_B4 j =
          (forLoop n (SpellFXNearClipAdjust.body NearClip field_64) ⟨B1, 0, c⟩).field_B4 j := by
  induction n with
  | zero =>
    simp [forLoop_zero]
  | succ k ih =>
    rw [forLoop_succ, forLoop_succ]
    exact nearClip_body_agree NearClip field_64 k _ _ ih

/-- C7: for every polygon of `uNumVertices ≥ 1` vertices and every `NearClip`, the value
`SpellFXNearClipAdjust` returns equals the new `uNumVertices`; every vertex in the slots
`field_B4[0 .. uNumVertices)` has `x ≥ NearClip`; these slots are the ones written: the
slots from `uNumVertices` on still hold what they held before the call, while the count and
the slots below it do not depend on what `field_B4` held before the call. -/
theorem nearClipAdjust_written_vertices (NearClip : ℚ) (b : SpellFX_Billboard)
    (h : 1 ≤ b.uNumVertices) :
    (SpellFXNearClipAdjust NearClip b).1 = (SpellFXNearClipAdjust NearClip b).2.uNumVertices ∧
    (∀ j, j < (SpellFXNearClipAdjust NearClip b).1 →
      NearClip ≤ ((SpellFXNearClipAdjust NearClip b).2.field_B4 j).pos.x) ∧
    (∀ j, (SpellFXNearClipAdjust NearClip b).1 ≤ j →
      (SpellFXNearClipAdjust NearClip b).2.field_B4 j = b.field_B4 j) ∧
    (∀ B1 : Nat → local_01,
      (SpellFXNearClipAdjust NearClip { b with field_B4 := B1 }).1 =
          (SpellFXNearClipAdjust NearClip b).1 ∧
        ∀ j, j < (SpellFXNearClipAdjust NearClip b).1 →
          (SpellFXNearClipAdjust NearClip { b with field_B4 := B1 }).2.field_B4 j =
            (SpellFXNearClipAdjust NearClip b).2.field_B4 j) := by
  have hn : b.uNumVertices ≠ 0 := by omega
  have hinv := nearClip_loop_invariant NearClip
    (Function.update b.field_64 b.uNumVertices (b.field_64 0)) b.field_B4
    (decide ((Function.update b.field_64 b.uNumVertices (b.field_64 0) 0).pos.x ≤ NearClip))
    b.uNumVertices
  unfold SpellFXNearClipAdjust
  simp only [hn, if_false]
  refine ⟨trivial, hinv.1, hinv.2, ?_⟩
  intro B1
  have hag := nearClip_loop_agree NearClip
    (Function.update b.field_64 b.uNumVertices (b.field_64 0)) b.field_B4 B1
    (decide ((Function.update b.field_64 b.uNumVertices (b.field_64 0) 0).pos.x ≤ NearClip))
    b.uNumVertices
  exact ⟨hag.1.symm, fun j hj => (hag.2.2 j hj).symm⟩

/-- C7 at a concrete input: the triangle with `x = 0, 5, 100` clipped at `NearClip = 1`. -/
theorem nearClipAdjust_written_vertices_witness :
    (SpellFXNearClipAdjust 1 (triangleX 0 5 100)).1 =
      (SpellFXNearClipAdjust 1 (triangleX 0 5 100)).2.uNumVertices :=
  (nearClipAdjust_written_vertices 1 (triangleX 0 5 100) (by decide)).1

/-- One iteration of the far-clip loop keeps: every produced vertex has
`lo < x ≤ farclip`, given that the vertex the iteration may copy out is beyond `lo`. -/
theorem farClip_body_invariant (lo farclip : ℚ) (field_64 : Nat → local_01) (i : Nat)
    (st : ClipLoopState) (hlo : lo < farclip) (hv : lo < (field_64 (i + 1)).pos.x)
    (h : ∀ j, j < st.ProducedVerts →
      lo < (st.field_B4 j).pos.x ∧ (st.field_B4 j).pos.x ≤ farclip) :
    ∀ j, j < (SpellFXFarClipAdjust.body farclip field_64 i st).ProducedVerts →
      lo < ((SpellFXFarClipAdjust.body farclip field_64 i st).field_B4 j).pos.x ∧
        ((SpellFXFarClipAdjust.body farclip field_64 i st).field_B4 j).pos.x ≤ farclip := by
  unfold SpellFXFarClipAdjust.body
  by_cases hn : (field_64 (i + 1)).pos.x ≥ farclip <;> cases hc : st.currvert <;>
    simp only [hn, hc, decide_True, decide_False, Bool.xor_false, Bool.xor_true, Bool.not_true,
      Bool.not_false, Bool.false_eq_true, if_true, if_false] <;>
    intro j hj <;>
    (try simp only [Function.update_apply]) <;>
    (try split_ifs) <;>
    first
      | exact ⟨hlo, le_refl _⟩
      | exact ⟨hv, le_of_lt (not_le.mp hn)⟩
      | exact h j (by omega)

/-- The far-clip loop, run for `n` iterations from an empty output on vertices that are all
beyond `lo`: every produced vertex has `lo < x ≤ farclip`. -/
theorem farClip_loop_invariant (lo farclip : ℚ) (field_64 B0 : Nat → local_01) (c : Bool)
    (n : Nat) (hlo : lo < farclip) (hv : ∀ i, i < n → lo < (field_64 (i + 1)).pos.x) :
    ∀ j, j < (forLoop n (SpellFXFarClipAdjust.body farclip field_64) ⟨B0, 0, c⟩).ProducedVerts →
      lo < ((forLoop n (SpellFXFarClipAdjust.body farclip field_64) ⟨B0, 0, c⟩).field_B4 j).pos.x ∧
        ((forLoop n (SpellFXFarClipAdjust.body farclip field_64) ⟨B0, 0, c⟩).field_B4 j).pos.x ≤
          farclip := by
  refine forLoop_invariant
    (fun (_ : Nat) (st : ClipLoopState) =>
      ∀ j, j < st.ProducedVerts →
        lo < (st.field_B4 j).pos.x ∧ (st.field_B4 j).pos.x ≤ farclip)
    n _ _ (fun j hj => absurd hj (Nat.not_lt_zero j)) ?_
  intro i st hi h
  exact farClip_body_invariant lo farclip field_64 i st hlo (hv i hi) h

/-- What the scanning loop of `SpellFXViewClip` has established after `n` vertices: if no
near clip is needed, every scanned vertex is beyond the near plane; if no clip at all is
needed, every scanned vertex is also before the far plane. -/
theorem viewClip_scan (NearClip FarClip : ℚ) (field_64 : Nat → local_01) (n : Nat) :
    ((forLoop n (SpellFXViewClip.scan NearClip FarClip field_64) (false, false)).1 = false →
        ∀ k, k < n → NearClip < (field_64 k).pos.x) ∧
      ((forLoop n (SpellFXViewClip.scan NearClip FarClip field_64) (false, false)).1 = false →
        (forLoop n (SpellFXViewClip.scan NearClip FarClip field_64) (false, false)).2 = false →
        ∀ k, k < n → (field_64 k).pos.x < FarClip) := by
  refine forLoop_invariant
    (fun (i : Nat) (need : Bool × Bool) =>
      (need.1 = false → ∀ k, k < i → NearClip < (field_64 k).pos.x) ∧
      (need.1 = false → need.2 = false → ∀ k, k < i → (field_64 k).pos.x < FarClip))
    n _ _ ⟨fun _ k hk => absurd hk (Nat.not_lt_zero k),
      fun _ _ k hk => absurd hk (Nat.not_lt_zero k)⟩ ?_
  intro i need _ h
  obtain ⟨h1, h2⟩ := h
  unfold SpellFXViewClip.scan
  by_cases hnear : NearClip < (field_64 i).pos.x
  · by_cases hfar : (field_64 i).pos.x ≥ FarClip
    · simp only [hfar, or_true, if_true, hnear]
      refine ⟨fun hn k hk => ?_, fun _ hf => absurd hf (by simp)⟩
      rcases Nat.lt_succ_iff_lt_or_eq.mp hk with hk2 | hk2
      · exact h1 hn k hk2
      · rw [hk2]; exact hnear
    · simp only [hfar, or_false, ge_iff_le, not_le.mpr hnear, if_false]
      refine ⟨fun hn k hk => ?_, fun hn hf k hk => ?_⟩
      · rcases Nat.lt_succ_iff_lt_or_eq.mp hk with hk2 | hk2
        · exact h1 hn k hk2
        · rw [hk2]; exact hnear
      · rcases Nat.lt_succ_iff_lt_or_eq.mp hk with hk2 | hk2
        · exact h2 hn hf k hk2
        · rw [hk2]; exact not_le.mp hfar
  · simp only [ge_iff_le, not_lt.mp hnear, true_or, if_true, hnear, if_false]
    exact ⟨fun hn => absurd hn (by simp), fun hn => absurd hn (by simp)⟩

/-- The copy-out loop of `SpellFXViewClip` copies slot `j` of `field_64` to slot `j`. -/
theorem viewClip_copy (field_64 B0 : Nat → local_01) (n : Nat) :
    ∀ j, j < n →
      forLoop n (fun i field_B4 => Function.update field_B4 i (field_64 i)) B0 j =
        field_64 j := by
  induction n with
  | zero => intro j hj; exact absurd hj (Nat.not_lt_zero j)
  | succ k ih =>
    intro j hj
    rw [forLoop_succ]
    by_cases hjk : j = k
    · subst hjk; simp
    · rw [Function.update_noteq hjk]
      exact ih j (by omega)

/-- What the two flags of the scanning loop of `SpellFXViewClip` say after `n` vertices:
`NeedNearClip` is set exactly when some scanned vertex is at or behind the near plane,
`NeedFarClip` exactly when some scanned vertex is beyond the near plane and at or beyond
the far plane. -/
theorem viewClip_scan_iff (NearClip FarClip : ℚ) (field_64 : Nat → local_01) (n : Nat) :
    ((forLoop n (SpellFXViewClip.scan NearClip FarClip field_64) (false, false)).1 = true ↔
        ∃ k, k < n ∧ (field_64 k).pos.x ≤ NearClip) ∧
      ((forLoop n (SpellFXViewClip.scan NearClip FarClip field_64) (false, false)).2 = true ↔
        ∃ k, k < n ∧ NearClip < (field_64 k).pos.x ∧ FarClip ≤ (field_64 k).pos.x) := by
  refine forLoop_invariant
    (fun (i : Nat) (need : Bool × Bool) =>
      (need.1 = true ↔ ∃ k, k < i ∧ (field_64 k).pos.x ≤ NearClip) ∧
      (need.2 = true ↔
        ∃ k, k < i ∧ NearClip < (field_64 k).pos.x ∧ FarClip ≤ (field_64 k).pos.x))
    n _ _ ⟨by simp, by simp⟩ ?_
  intro i need _ h
  obtain ⟨h1, h2⟩ := h
  unfold SpellFXViewClip.scan
  simp only [Nat.exists_lt_succ_right]
  by_cases hnear : NearClip < (field_64 i).pos.x
  · have hnle : ¬ (field_64 i).pos.x ≤ NearClip := not_le.mpr hnear
    by_cases hfar : FarClip ≤ (field_64 i).pos.x
    · rw [if_pos (Or.inr hfar), if_pos hnear]
      exact ⟨by rw [h1]; simp [hnle], by simp [hnear, hfar]⟩
    · rw [if_neg (by simp [hnle, hfar])]
      exact ⟨by rw [h1]; simp [hnle], by rw [h2]; simp [hfar]⟩
  · have hle : (field_64 i).pos.x ≤ NearClip := not_lt.mp hnear
    rw [if_pos (Or.inl hle), if_neg hnear]
    exact ⟨by simp [hle], by rw [h2]; simp [hnear]⟩

/-- Evaluation of `SpellFXViewClip` on the triangle with `x = 0, 5, 100` for the clip
distances 1 and 50: the near clip runs, leaves four vertices and keeps `x = 100`. -/
theorem viewClip_triangle_0_5_100 :
    (SpellFXViewClip (identityCamera 5) (triangleX 0 5 100)).1 = true ∧
      (SpellFXViewClip (identityCamera 5) (triangleX 0 5 100)).2.uNumVertices = 4 ∧
      ((SpellFXViewClip (identityCamera 5) (triangleX 0 5 100)).2.field_B4 2).pos.x = 100 := by
  simp [SpellFXViewClip, SpellFXNearClipAdjust, SpellFXNearClipAdjust.body,
    SpellFXViewClip.scan, forLoop, List.range_succ, identityCamera, triangleX, vertexAt,
    Function.update_apply]
  norm_num

/-- C6 (counterexample): for the triangle with `x = 0, 5, 100` and the clip distances
`near = 1 < far = 50`, `SpellFXViewClip` returns true, yet not every output vertex has
`near ≤ x ≤ far`: output vertex 2 has `x = 100`. -/
theorem viewClip_output_beyond_far_plane :
    (triangleX 0 5 100).uNumVertices = 3 ∧
      (identityCamera 5).NearClip < (identityCamera 5).FarClip ∧
      (SpellFXViewClip (identityCamera 5) (triangleX 0 5 100)).1 = true ∧
      ¬ (∀ j, j < (SpellFXViewClip (identityCamera 5) (triangleX 0 5 100)).2.uNumVertices →
        (identityCamera 5).NearClip ≤
            ((SpellFXViewClip (identityCamera 5) (triangleX 0 5 100)).2.field_B4 j).pos.x ∧
          ((SpellFXViewClip (identityCamera 5) (triangleX 0 5 100)).2.field_B4 j).pos.x ≤
            (identityCamera 5).FarClip) := by
  refine ⟨rfl, by norm_num [identityCamera], viewClip_triangle_0_5_100.1, ?_⟩
  intro h
  have h2 := (h 2 (by rw [viewClip_triangle_0_5_100.2.1]; decide)).2
  rw [viewClip_triangle_0_5_100.2.2] at h2
  norm_num [identityCamera] at h2

/-! ### `SetPlayerBuffAnim` -/

/-- A spell that selects an icon name is not `SPELL_NONE`. -/
theorem iconName_some_ne_none (uSpellID : SpellId) (name : String)
    (h : SetPlayerBuffAnim.iconName uSpellID = some name) :
    uSpellID ≠ SpellId.SPELL_NONE := by
  intro h2
  rw [h2] at h
  simp [SetPlayerBuffAnim.iconName] at h

/-- C11: for every spell id that is not a case label of `SetPlayerBuffAnim` (the `switch`
takes its `default` branch; `SPELL_NONE` and every id the function does not name are such
ids), the call leaves slot `uPlayerID` with `bRender = false` and
`uSpellAnimTimeElapsed = 0`, changes neither `uSpellIconID` nor `uSpellAnimTime`, leaves
the other slots alone and makes no lookup in the icon frame table. -/
theorem setPlayerBuffAnim_default_branch (tbl : IconFrameTable) (uSpellID : SpellId)
    (uPlayerID : Nat) (s : SpellFxRenderer)
    (h : SetPlayerBuffAnim.iconName uSpellID = none) :
    ((SetPlayerBuffAnim tbl uSpellID uPlayerID s).1.pCharacterBuffs uPlayerID).bRender = false ∧
    ((SetPlayerBuffAnim tbl uSpellID uPlayerID s).1.pCharacterBuffs
      uPlayerID).uSpellAnimTimeElapsed = 0 ∧
    ((SetPlayerBuffAnim tbl uSpellID uPlayerID s).1.pCharacterBuffs uPlayerID).uSpellIconID =
      (s.pCharacterBuffs uPlayerID).uSpellIconID ∧
    ((SetPlayerBuffAnim tbl uSpellID uPlayerID s).1.pCharacterBuffs uPlayerID).uSpellAnimTime =
      (s.pCharacterBuffs uPlayerID).uSpellAnimTime ∧
    (∀ j, j ≠ uPlayerID →
      (SetPlayerBuffAnim tbl uSpellID uPlayerID s).1.pCharacterBuffs j = s.pCharacterBuffs j) ∧
    (SetPlayerBuffAnim tbl uSpellID uPlayerID s).2 = [] ∧
    SetPlayerBuffAnim.iconName SpellId.SPELL_NONE = none ∧
    (∀ value, SetPlayerBuffAnim.iconName (SpellId.other value) = none) := by
  unfold SetPlayerBuffAnim
  rw [h]
  refine ⟨by simp, by simp, by simp, by simp, ?_, rfl, rfl, fun _ => rfl⟩
  intro j hj
  simp [Function.update_noteq hj]

/-- C11 at a concrete input: `SPELL_NONE` on slot 0 of a renderer whose slot 0 is running
an animation. -/
theorem setPlayerBuffAnim_default_branch_witness :
    ((SetPlayerBuffAnim demoIconTable SpellId.SPELL_NONE 0 buffRenderer).1.pCharacterBuffs
        0).bRender = false ∧
      (SetPlayerBuffAnim demoIconTable SpellId.SPELL_NONE 0 buffRenderer).2 = [] :=
  have h := setPlayerBuffAnim_default_branch demoIconTable SpellId.SPELL_NONE 0 buffRenderer rfl
  ⟨h.1, h.2.2.2.2.2.1⟩

/-- C12: for every spell id that is a case label of `SetPlayerBuffAnim`, selecting the icon
name `name`, the call sets slot `uPlayerID` to `bRender = true`,
`uSpellAnimTimeElapsed = 0`, `uSpellIconID = animationId(name)` and
`uSpellAnimTime = animationLength(uSpellIconID)`, making exactly these two lookups; the
spell is not `SPELL_NONE`, so the `bRender` guard before the length assignment is true;
the slots of the other players are unchanged. The name is a function of the spell alone:
`SPELL_DISEASE` gives `zapp`, `SPELL_FIRE_HASTE` gives `spell05`, `SPELL_BODY_POWER_CURE`
gives `spheal3`. -/
theorem setPlayerBuffAnim_case_label (tbl : IconFrameTable) (uSpellID : SpellId)
    (uPlayerID : Nat) (s : SpellFxRenderer) (name : String)
    (h : SetPlayerBuffAnim.iconName uSpellID = some name) :
    (SetPlayerBuffAnim tbl uSpellID uPlayerID s).1.pCharacterBuffs uPlayerID =
      ⟨true, 0, tbl.animationLength (tbl.animationId name), tbl.animationId name⟩ ∧
    (SetPlayerBuffAnim tbl uSpellID uPlayerID s).2 =
      [IconLookup.animationId name, IconLookup.animationLength (tbl.animationId name)] ∧
    decide (uSpellID ≠ SpellId.SPELL_NONE) = true ∧
    (∀ j, j ≠ uPlayerID →
      (SetPlayerBuffAnim tbl uSpellID uPlayerID s).1.pCharacterBuffs j = s.pCharacterBuffs j) ∧
    SetPlayerBuffAnim.iconName SpellId.SPELL_DISEASE = some "zapp" ∧
    SetPlayerBuffAnim.iconName SpellId.SPELL_FIRE_HASTE = some "spell05" ∧
    SetPlayerBuffAnim.iconName SpellId.SPELL_BODY_POWER_CURE = some "spheal3" := by
  have hne := iconName_some_ne_none uSpellID name h
  unfold SetPlayerBuffAnim
  rw [h]
  refine ⟨by simp [hne], by simp [hne], by simp [hne], ?_, rfl, rfl, rfl⟩
  intro j hj
  simp [hne, Function.update_noteq hj]

/-- C12 at a concrete input: `SPELL_FIRE_HASTE` on slot 2 of the idle renderer. -/
theorem setPlayerBuffAnim_case_label_witness :
    (SetPlayerBuffAnim demoIconTable SpellId.SPELL_FIRE_HASTE 2 idleRenderer).1.pCharacterBuffs 2 =
      ⟨true, 0, demoIconTable.animationLength (demoIconTable.animationId "spell05"),
        demoIconTable.animationId "spell05"⟩ :=
  (setPlayerBuffAnim_case_label demoIconTable SpellId.SPELL_FIRE_HASTE 2 idleRenderer
    "spell05" rfl).1

/-! ### `CharacterTapeRecorder` -/

/-- The loop of the plural `custom` appends the callback values to what it already has. -/
theorem custom_foldl {Character T : Type} (callback : Character → T)
    (characters : List Character) (acc : List T) :
    characters.foldl (fun result character => result ++ [callback character]) acc =
      acc ++ characters.map callback := by
  induction characters generalizing acc with
  | nil => simp
  | cons c cs ih => simp [List.foldl_cons, ih]

/-- The plural sample is the party mapped through the callback. -/
theorem custom_eq_map {Character T : Type} (callback : Character → T)
    (characters : List Character) :
    CharacterTapeRecorder.custom callback characters = characters.map callback := by
  unfold CharacterTapeRecorder.custom
  rw [custom_foldl]
  simp

/-- C13: for every party and every callback, the sample of the plural
`CharacterTapeRecorder::custom(callback)` has exactly one element for each character of the
party, in party order, and its `i`-th element is `callback(characters()[i])`. -/
theorem custom_plural_sample {Character T : Type} (callback : Character → T)
    (characters : List Character) :
    (CharacterTapeRecorder.custom callback characters).length = characters.length ∧
      ∀ i (hi : i < characters.length),
        (CharacterTapeRecorder.custom callback characters).get? i =
          some (callback (characters.get ⟨i, hi⟩)) := by
  rw [custom_eq_map]
  refine ⟨List.length_map _ _, ?_⟩
  intro i hi
  simp [List.getElem?_eq_getElem hi]

/-- C13 at a concrete input: a party of four numbers, the callback doubles; the sample has
four elements and the one at index 2 is the doubled third character. -/
theorem custom_plural_sample_witness :
    (CharacterTapeRecorder.custom (fun c : Nat => 2 * c) [10, 20, 30, 40]).length = 4 ∧
      (CharacterTapeRecorder.custom (fun c : Nat => 2 * c) [10, 20, 30, 40]).get? 2 = some 60 :=
  ⟨(custom_plural_sample (fun c : Nat => 2 * c) [10, 20, 30, 40]).1,
    (custom_plural_sample (fun c : Nat => 2 * c) [10, 20, 30, 40]).2 2 (by decide)⟩

/-- C14: for every party, every callback and every 0-based index smaller than the party
size, the sample of the singular `CharacterTapeRecorder::custom(characterIndex, callback)`
is the callback value of that character and equals the element at that index of the
sample of the plural `custom(callback)` on the same party. -/
theorem custom_singular_is_element {Character T : Type} (callback : Character → T)
    (characters : List Character) (characterIndex : Int) (h0 : 0 ≤ characterIndex)
    (hlt : characterIndex < characters.length) :
    CharacterTapeRecorder.customIndex characterIndex callback characters =
        (CharacterTapeRecorder.custom callback characters).get? characterIndex.toNat ∧
      ∃ hi : characterIndex.toNat < characters.length,
        CharacterTapeRecorder.customIndex characterIndex callback characters =
          some (callback (characters.get ⟨characterIndex.toNat, hi⟩)) := by
  have hi : characterIndex.toNat < characters.length := by omega
  rw [custom_eq_map]
  unfold CharacterTapeRecorder.customIndex
  refine ⟨by simp [h0], hi, ?_⟩
  simp [h0, List.getElem?_eq_getElem hi]

/-- C14 at a concrete input: a party of four numbers, the callback doubles, index 2. -/
theorem custom_singular_is_element_witness :
    CharacterTapeRecorder.customIndex 2 (fun c : Nat => 2 * c) [10, 20, 30, 40] =
      (CharacterTapeRecorder.custom (fun c : Nat => 2 * c) [10, 20, 30, 40]).get? 2 :=
  (custom_singular_is_element (fun c : Nat => 2 * c) [10, 20, 30, 40] 2 (by decide)
    (by decide)).1

/-! ### `DoAddProjectile` -/

/-- One `DoAddProjectile` call keeps the counter within `0..32`. -/
theorem doAddProjectile_bounds (srcX srcY srcZ dstX dstY dstZ : ℚ) (texture : Nat)
    (s : SpellFxRenderer) (h : 0 ≤ s.uNumProjectiles ∧ s.uNumProjectiles ≤ 32) :
    0 ≤ (DoAddProjectile srcX srcY srcZ dstX dstY dstZ texture s).uNumProjectiles ∧
      (DoAddProjectile srcX srcY srcZ dstX dstY dstZ texture s).uNumProjectiles ≤ 32 := by
  unfold DoAddProjectile
  by_cases hlt : s.uNumProjectiles < 32
  · simp only [hlt, if_true]
    omega
  · simp only [hlt, if_false]
    exact h

/-- A sequence of `DoAddProjectile` calls keeps the counter within `0..32`. -/
theorem addProjectiles_bounds (calls : List ProjectileAnim) (s : SpellFxRenderer)
    (h : 0 ≤ s.uNumProjectiles ∧ s.uNumProjectiles ≤ 32) :
    0 ≤ (addProjectiles calls s).uNumProjectiles ∧
      (addProjectiles calls s).uNumProjectiles ≤ 32 := by
  unfold addProjectiles
  induction calls generalizing s with
  | nil => simpa using h
  | cons p ps ih =>
    rw [List.foldl_cons]
    exact ih _ (doAddProjectile_bounds _ _ _ _ _ _ _ s h)

/-- C15: from a state with `0 ≤ uNumProjectiles ≤ 32`, every sequence of `DoAddProjectile`
calls leaves `uNumProjectiles` within `0..32`; a call with `uNumProjectiles < 32` writes
its seven arguments into slot `uNumProjectiles`, leaves every other slot (so all earlier
ones) unchanged and increments `uNumProjectiles` by one; a call with
`uNumProjectiles = 32` leaves the state as it is. -/
theorem doAddProjectile_queue (s : SpellFxRenderer) (h0 : 0 ≤ s.uNumProjectiles)
    (h32 : s.uNumProjectiles ≤ 32) :
    (∀ calls : List ProjectileAnim,
      0 ≤ (addProjectiles calls s).uNumProjectiles ∧
        (addProjectiles calls s).uNumProjectiles ≤ 32) ∧
    (s.uNumProjectiles < 32 →
      ∀ (srcX srcY srcZ dstX dstY dstZ : ℚ) (texture : Nat),
        (DoAddProjectile srcX srcY srcZ dstX dstY dstZ texture s).pProjectiles
            s.uNumProjectiles.toNat = ⟨srcX, srcY, srcZ, dstX, dstY, dstZ, texture⟩ ∧
          (∀ j, j ≠ s.uNumProjectiles.toNat →
            (DoAddProjectile srcX srcY srcZ dstX dstY dstZ texture s).pProjectiles j =
              s.pProjectiles j) ∧
          (DoAddProjectile srcX srcY srcZ dstX dstY dstZ texture s).uNumProjectiles =
            s.uNumProjectiles + 1) ∧
    (s.uNumProjectiles = 32 →
      ∀ (srcX srcY srcZ dstX dstY dstZ : ℚ) (texture : Nat),
        DoAddProjectile srcX srcY srcZ dstX dstY dstZ texture s = s) := by
  refine ⟨fun calls => addProjectiles_bounds calls s ⟨h0, h32⟩, ?_, ?_⟩
  · intro hlt srcX srcY srcZ dstX dstY dstZ texture
    unfold DoAddProjectile
    simp only [hlt, if_true, Function.update_same, true_and]
    exact ⟨fun j hj => Function.update_noteq hj _ _, trivial⟩
  · intro heq srcX srcY srcZ dstX dstY dstZ texture
    unfold DoAddProjectile
    simp [heq]

/-- C15 at a concrete input: the queue holding one projectile takes a second one in
slot 1. -/
theorem doAddProjectile_queue_witness :
    (DoAddProjectile 1 2 3 4 5 6 9 oneProjectileRenderer).pProjectiles
        oneProjectileRenderer.uNumProjectiles.toNat = ⟨1, 2, 3, 4, 5, 6, 9⟩ ∧
      (DoAddProjectile 1 2 3 4 5 6 9 oneProjectileRenderer).uNumProjectiles =
        oneProjectileRenderer.uNumProjectiles + 1 :=
  have h := (doAddProjectile_queue oneProjectileRenderer (by simp [oneProjectileRenderer])
    (by simp [oneProjectileRenderer])).2.1 (by simp [oneProjectileRenderer]) 1 2 3 4 5 6 9
  ⟨h.1, h.2.2⟩

/-! ### The fade alpha and the fade invariant -/

/-- The `ScreenFade` calls of a frame, as a list. -/
theorem filter_screenFade_renderSpecialEffects (env : Env) (s : SpellFxRenderer) :
    (RenderSpecialEffects env s).2.filter RenderCall.isScreenFade =
      if 0 < s.uFadeTime then
        [RenderCall.ScreenFade s.uFadeColor
          (RenderSpecialEffects.fadeAlpha s.uFadeTime s.uFadeLength)]
      else [] := by
  have h1 : (RenderSpecialEffects.projectiles env s).2.filter RenderCall.isScreenFade = [] :=
    List.length_eq_zero.mp (countScreenFade_projectiles env s)
  have h3 : ∀ s2, (RenderSpecialEffects.prismatic env s2).2.filter RenderCall.isScreenFade = [] :=
    fun s2 => List.length_eq_zero.mp (countScreenFade_prismatic env s2)
  simp only [RenderSpecialEffects, List.filter_append, h1, h3, List.nil_append, List.append_nil]
  unfold RenderSpecialEffects.fade
  rw [(projectiles_fade_fields env s).1, (projectiles_fade_fields env s).2.1,
    (projectiles_fade_fields env s).2.2]
  by_cases h : 0 < s.uFadeTime <;> simp [h, RenderCall.isScreenFade]

/-- The fade progress `uFadeTime / uFadeLength` is in `(0, 1]` when
`0 < uFadeTime ≤ uFadeLength`. -/
theorem fadeProgress_range (t L : Int) (h0 : 0 < t) (hle : t ≤ L) :
    (0 : ℚ) < (t : ℚ) / (L : ℚ) ∧ (t : ℚ) / (L : ℚ) ≤ 1 := by
  have hL : (0 : ℚ) < (L : ℚ) := by exact_mod_cast lt_of_lt_of_le h0 hle
  have ht : (0 : ℚ) < (t : ℚ) := by exact_mod_cast h0
  have hle2 : (t : ℚ) ≤ (L : ℚ) := by exact_mod_cast hle
  exact ⟨div_pos ht hL, (div_le_one hL).mpr hle2⟩

/-- C16: for every fade state with `0 < uFadeTime ≤ uFadeLength`, `RenderSpecialEffects`
makes exactly one `ScreenFade` call, with the fade colour and the alpha `fadeAlpha`; that
alpha is in `[0, 1)`; with `p = uFadeTime / uFadeLength` and `a = 1 - p * p` it is `a` when
`a ≤ 0.9` and `1 - (a - 0.9) * 10` when `a > 0.9`; and it is 0 when
`uFadeTime = uFadeLength` (`p = 1`, the first frame of a fade). -/
theorem fadeAlpha_in_unit_interval (env : Env) (s : SpellFxRenderer) (h0 : 0 < s.uFadeTime)
    (hle : s.uFadeTime ≤ s.uFadeLength) :
    (RenderSpecialEffects env s).2.filter RenderCall.isScreenFade =
      [RenderCall.ScreenFade s.uFadeColor
        (RenderSpecialEffects.fadeAlpha s.uFadeTime s.uFadeLength)] ∧
    0 ≤ RenderSpecialEffects.fadeAlpha s.uFadeTime s.uFadeLength ∧
    RenderSpecialEffects.fadeAlpha s.uFadeTime s.uFadeLength < 1 ∧
    (1 - ((s.uFadeTime : ℚ) / (s.uFadeLength : ℚ)) * ((s.uFadeTime : ℚ) / (s.uFadeLength : ℚ))
        ≤ 9 / 10 →
      RenderSpecialEffects.fadeAlpha s.uFadeTime s.uFadeLength =
        1 - ((s.uFadeTime : ℚ) / (s.uFadeLength : ℚ)) *
          ((s.uFadeTime : ℚ) / (s.uFadeLength : ℚ))) ∧
    (1 - ((s.uFadeTime : ℚ) / (s.uFadeLength : ℚ)) * ((s.uFadeTime : ℚ) / (s.uFadeLength : ℚ))
        > 9 / 10 →
      RenderSpecialEffects.fadeAlpha s.uFadeTime s.uFadeLength =
        1 - (1 - ((s.uFadeTime : ℚ) / (s.uFadeLength : ℚ)) *
          ((s.uFadeTime : ℚ) / (s.uFadeLength : ℚ)) - 9 / 10) * 10) ∧
    (s.uFadeTime = s.uFadeLength →
      RenderSpecialEffects.fadeAlpha s.uFadeTime s.uFadeLength = 0) := by
  obtain ⟨hp0, hp1⟩ := fadeProgress_range s.uFadeTime s.uFadeLength h0 hle
  have hsq0 : 0 < ((s.uFadeTime : ℚ) / (s.uFadeLength : ℚ)) *
      ((s.uFadeTime : ℚ) / (s.uFadeLength : ℚ)) := mul_pos hp0 hp0
  have hsq1 : ((s.uFadeTime : ℚ) / (s.uFadeLength : ℚ)) *
      ((s.uFadeTime : ℚ) / (s.uFadeLength : ℚ)) ≤ 1 := by nlinarith
  refine ⟨?_, ?_, ?_, ?_, ?_, ?_⟩
  · rw [filter_screenFade_renderSpecialEffects, if_pos h0]
  · unfold RenderSpecialEffects.fadeAlpha
    simp only
    split_ifs with ha
    · linarith
    · linarith
  · unfold RenderSpecialEffects.fadeAlpha
    simp only
    split_ifs with ha
    · linarith
    · linarith
  · intro ha
    unfold RenderSpecialEffects.fadeAlpha
    simp only
    rw [if_neg (not_lt.mpr ha)]
  · intro ha
    unfold RenderSpecialEffects.fadeAlpha
    simp only
    rw [if_pos ha]
  · intro heq
    have hL : (s.uFadeLength : ℚ) ≠ 0 := by
      have : (0 : ℚ) < (s.uFadeLength : ℚ) := by exact_mod_cast lt_of_lt_of_le h0 hle
      exact ne_of_gt this
    unfold RenderSpecialEffects.fadeAlpha
    simp only [heq, div_self hL]
    norm_num

/-- C16 at a concrete input: 5 of 10 ticks left, so `p = 1/2`, `a = 3/4` and the alpha is
`3/4`. -/
theorem fadeAlpha_in_unit_interval_witness :
    0 ≤ RenderSpecialEffects.fadeAlpha
        (renderFrames (frameEnv 5) 1 (FadeScreen__like_Turn_Undead_and_mb_Armageddon
          ⟨255, 0, 0, 255⟩ 10 idleRenderer)).uFadeTime
        (renderFrames (frameEnv 5) 1 (FadeScreen__like_Turn_Undead_and_mb_Armageddon
          ⟨255, 0, 0, 255⟩ 10 idleRenderer)).uFadeLength ∧
      RenderSpecialEffects.fadeAlpha
        (renderFrames (frameEnv 5) 1 (FadeScreen__like_Turn_Undead_and_mb_Armageddon
          ⟨255, 0, 0, 255⟩ 10 idleRenderer)).uFadeTime
        (renderFrames (frameEnv 5) 1 (FadeScreen__like_Turn_Undead_and_mb_Armageddon
          ⟨255, 0, 0, 255⟩ 10 idleRenderer)).uFadeLength < 1 :=
  have h := fadeAlpha_in_unit_interval (frameEnv 5)
    (renderFrames (frameEnv 5) 1 (FadeScreen__like_Turn_Undead_and_mb_Armageddon
      ⟨255, 0, 0, 255⟩ 10 idleRenderer))
    (by
      simp only [renderFrames, (renderSpecialEffects_fade_fields _ _).1]
      simp [FadeScreen__like_Turn_Undead_and_mb_Armageddon, frameEnv])
    (by
      simp only [renderFrames, (renderSpecialEffects_fade_fields _ _).1,
        (renderSpecialEffects_fade_fields _ _).2.1]
      simp [FadeScreen__like_Turn_Undead_and_mb_Armageddon, frameEnv])
  ⟨h.2.1, h.2.2.1⟩

/-- One operation with a non-negative timer step keeps `uFadeTime ≤ uFadeLength`. -/
theorem fadeOp_keeps_invariant (op : FadeOp) (s : SpellFxRenderer) (hop : op.stepNonneg)
    (h : s.uFadeTime ≤ s.uFadeLength) :
    (op.apply s).uFadeTime ≤ (op.apply s).uFadeLength := by
  cases op with
  | fadeScreen color t =>
    simp [FadeOp.apply, FadeScreen__like_Turn_Undead_and_mb_Armageddon]
  | render env =>
    have hf := renderSpecialEffects_fade_fields env s
    have hdt : 0 ≤ env.dt := hop
    simp only [FadeOp.apply]
    rw [hf.1, hf.2.1]
    split_ifs <;> omega

/-- C17: in every state reached from a state with `uFadeTime ≤ uFadeLength` by a sequence
of `FadeScreen__like_Turn_Undead_and_mb_Armageddon` calls (any colour, any duration) and
`RenderSpecialEffects` calls (any environment with timer step `dt ≥ 0`),
`uFadeTime ≤ uFadeLength` holds; hence whenever the fade branch would be taken there
(`uFadeTime > 0`), the divisor `uFadeLength` is non-zero and the fade progress
`uFadeTime / uFadeLength` is in `(0, 1]`. -/
theorem fade_time_le_length_reachable (s : SpellFxRenderer) (ops : List FadeOp)
    (hs : s.uFadeTime ≤ s.uFadeLength) (hops : ∀ op, op ∈ ops → op.stepNonneg) :
    (runFadeOps ops s).uFadeTime ≤ (runFadeOps ops s).uFadeLength ∧
      (0 < (runFadeOps ops s).uFadeTime →
        (runFadeOps ops s).uFadeLength ≠ 0 ∧
          (0 : ℚ) < ((runFadeOps ops s).uFadeTime : ℚ) / ((runFadeOps ops s).uFadeLength : ℚ) ∧
          ((runFadeOps ops s).uFadeTime : ℚ) / ((runFadeOps ops s).uFadeLength : ℚ) ≤ 1) := by
  have hinv : (runFadeOps ops s).uFadeTime ≤ (runFadeOps ops s).uFadeLength := by
    unfold runFadeOps
    induction ops generalizing s with
    | nil => simpa using hs
    | cons op rest ih =>
      rw [List.foldl_cons]
      exact ih (op.apply s)
        (fadeOp_keeps_invariant op s (hops op (List.mem_cons_self op rest)) hs)
        (fun o ho => hops o (List.mem_cons_of_mem op ho))
  refine ⟨hinv, fun hpos => ⟨?_, fadeProgress_range _ _ hpos hinv⟩⟩
  omega

/-- C17 at a concrete input: a fade of 10 ticks followed by two frames of 4 ticks. -/
theorem fade_time_le_length_reachable_witness :
    (runFadeOps [FadeOp.fadeScreen ⟨255, 0, 0, 255⟩ 10, FadeOp.render (frameEnv 4),
        FadeOp.render (frameEnv 4)] idleRenderer).uFadeTime ≤
      (runFadeOps [FadeOp.fadeScreen ⟨255, 0, 0, 255⟩ 10, FadeOp.render (frameEnv 4),
        FadeOp.render (frameEnv 4)] idleRenderer).uFadeLength :=
  (fade_time_le_length_reachable idleRenderer
    [FadeOp.fadeScreen ⟨255, 0, 0, 255⟩ 10, FadeOp.render (frameEnv 4),
      FadeOp.render (frameEnv 4)]
    (by simp [idleRenderer])
    (by
      intro op hop
      simp only [List.mem_cons, List.mem_singleton, List.not_mem_nil, or_false] at hop
      rcases hop with rfl | rfl | rfl <;> simp [FadeOp.stepNonneg, frameEnv])).1

/-! ### `_4A806F_get_mass_distortion_value` -/

/-- The value of a call on a distorted actor whose `assert` holds is the curve at
`v = 1 - elapsed`; the actor is reset exactly when `v ≤ 0`. -/
theorem massDistortion_eval (pMiscTimer : MiscTimer) (pActor : Actor)
    (hnz : pActor.massDistortionTime ≠ 0)
    (hle : pActor.massDistortionTime ≤ pMiscTimer.time) :
    _4A806F_get_mass_distortion_value pMiscTimer pActor =
      some (massDistortionCurve (1 - pMiscTimer.realtimeMillisecondsFloat
          (pMiscTimer.time - pActor.massDistortionTime)),
        if 0 < 1 - pMiscTimer.realtimeMillisecondsFloat
            (pMiscTimer.time - pActor.massDistortionTime)
        then pActor else { pActor with massDistortionTime := 0 }) := by
  unfold _4A806F_get_mass_distortion_value massDistortionCurve
  simp only [hnz, if_false, hle, not_true_eq_false]
  by_cases h1 : 1 - pMiscTimer.realtimeMillisecondsFloat
      (pMiscTimer.time - pActor.massDistortionTime) > 1 / 2
  · have h2 : 0 < 1 - pMiscTimer.realtimeMillisecondsFloat
        (pMiscTimer.time - pActor.massDistortionTime) := by linarith
    simp only [h1, if_true, h2]
    congr 2
    ring
  · by_cases h2 : 0 < 1 - pMiscTimer.realtimeMillisecondsFloat
        (pMiscTimer.time - pActor.massDistortionTime)
    · simp only [h1, if_false, h2, gt_iff_lt, if_true]
      congr 2
      ring
    · simp only [h1, if_false, h2, gt_iff_lt]

/-- The curve stays within `[0.2, 1]` for `v ≤ 1`. -/
theorem massDistortionCurve_range (v : ℚ) (hv : v ≤ 1) :
    1 / 5 ≤ massDistortionCurve v ∧ massDistortionCurve v ≤ 1 := by
  unfold massDistortionCurve
  split_ifs with h1 h2
  · constructor
    · have : 0 ≤ (v - 1 / 2) ^ 2 := sq_nonneg _
      linarith
    · nlinarith
  · have h3 : v ≤ 1 / 2 := not_lt.mp h1
    constructor
    · nlinarith
    · have : 0 ≤ v ^ 2 := sq_nonneg _
      linarith
  · norm_num

/-- The curve takes the value `0.2` at `v = 0.5` and nowhere else. -/
theorem massDistortionCurve_eq_min_iff (v : ℚ) :
    massDistortionCurve v = 1 / 5 ↔ v = 1 / 2 := by
  unfold massDistortionCurve
  split_ifs with h1 h2
  · constructor
    · intro h
      have h3 : (v - 1 / 2) ^ 2 = 0 := by linarith
      have h4 : v - 1 / 2 = 0 := by simpa using h3
      linarith
    · intro h
      rw [h] at h1
      exact absurd h1 (lt_irrefl _)
  · have h3 : v ≤ 1 / 2 := not_lt.mp h1
    constructor
    · intro h
      have h4 : (1 / 2 - v) * (1 / 2 + v) = 0 := by linarith
      rcases mul_eq_zero.mp h4 with h5 | h5
      · linarith
      · linarith
    · intro h
      rw [h]
      norm_num
  · constructor
    · intro h
      norm_num at h
    · intro h
      rw [h] at h2
      exact absurd (by norm_num) h2

/-- C18: for every actor with `massDistortionTime` non-zero and not later than the current
timer value, with the conversion `realtimeMillisecondsFloat` giving a non-negative value on
a non-negative duration, the call returns a value in `[0.2, 1.0]`. Writing `v = 1 - elapsed`,
the value is the curve `0.2 + 0.8 * (v - 0.5)^2 / 0.25` for `v > 0.5`,
`1 - 0.8 * v^2 / 0.25` for `0 < v ≤ 0.5` and `1` for `v ≤ 0`; it is `1.0` at
`elapsed = 0`; it is `0.2` exactly when `v = 0.5`, where the two branch formulas agree. -/
theorem massDistortion_value_in_range (pMiscTimer : MiscTimer) (pActor : Actor)
    (hnz : pActor.massDistortionTime ≠ 0)
    (hle : pActor.massDistortionTime ≤ pMiscTimer.time)
    (hconv : ∀ d : Int, 0 ≤ d → 0 ≤ pMiscTimer.realtimeMillisecondsFloat d) :
    ∃ (value : ℚ) (actor : Actor),
      _4A806F_get_mass_distortion_value pMiscTimer pActor = some (value, actor) ∧
      1 / 5 ≤ value ∧ value ≤ 1 ∧
      value = massDistortionCurve (1 - pMiscTimer.realtimeMillisecondsFloat
        (pMiscTimer.time - pActor.massDistortionTime)) ∧
      (pMiscTimer.realtimeMillisecondsFloat
          (pMiscTimer.time - pActor.massDistortionTime) = 0 → value = 1) ∧
      (value = 1 / 5 ↔
        1 - pMiscTimer.realtimeMillisecondsFloat
          (pMiscTimer.time - pActor.massDistortionTime) = 1 / 2) ∧
      (1 / 5 + 4 / 5 * ((1 / 2 : ℚ) - 1 / 2) ^ 2 / (1 / 4) = 1 / 5 ∧
        1 - 4 / 5 * (1 / 2 : ℚ) ^ 2 / (1 / 4) = 1 / 5) := by
  have hel : 0 ≤ pMiscTimer.realtimeMillisecondsFloat
      (pMiscTimer.time - pActor.massDistortionTime) := hconv _ (by omega)
  have hr := massDistortionCurve_range (1 - pMiscTimer.realtimeMillisecondsFloat
    (pMiscTimer.time - pActor.massDistortionTime)) (by linarith)
  refine ⟨_, _, massDistortion_eval pMiscTimer pActor hnz hle, hr.1, hr.2, rfl, ?_,
    massDistortionCurve_eq_min_iff _, by norm_num, by norm_num⟩
  intro h0
  rw [h0]
  norm_num [massDistortionCurve]

/-- C18 at a concrete input: the spell applied at tick 100, now tick 164, 128 ticks per
unit: `elapsed = 0.5`, `v = 0.5`, and the value is the minimum `0.2`. -/
theorem massDistortion_value_in_range_witness :
    ∃ (value : ℚ) (actor : Actor),
      _4A806F_get_mass_distortion_value (demoTimer 164) ⟨100⟩ = some (value, actor) ∧
      1 / 5 ≤ value ∧ value ≤ 1 :=
  have h := massDistortion_value_in_range (demoTimer 164) ⟨100⟩ (by decide)
    (by simp [demoTimer])
    (by
      intro d hd
      have : (0 : ℚ) ≤ (d : ℚ) := by exact_mod_cast hd
      simp only [demoTimer]
      positivity)
  match h with
  | ⟨value, actor, h1, h2, h3, _⟩ => ⟨value, actor, h1, h2, h3⟩

/-- C19: for an actor whose `massDistortionTime` is zero the call returns `1.0` and leaves
the actor unchanged. For a distorted actor (spell applied not later than the current timer
value) whose distortion has run out (`v = 1 - elapsed ≤ 0`) it returns `1.0` and resets
`massDistortionTime` to zero, and every later call, with any timer, returns `1.0` again and
leaves the actor as it is. For a distorted actor with `v > 0` the call returns and leaves
the actor unchanged; no call that returns with `v > 0` modifies `massDistortionTime`. -/
theorem massDistortion_reset_when_run_out (pMiscTimer : MiscTimer) (pActor : Actor) :
    (pActor.massDistortionTime = 0 →
      _4A806F_get_mass_distortion_value pMiscTimer pActor = some (1, pActor)) ∧
    (pActor.massDistortionTime ≠ 0 → pActor.massDistortionTime ≤ pMiscTimer.time →
      1 - pMiscTimer.realtimeMillisecondsFloat
          (pMiscTimer.time - pActor.massDistortionTime) ≤ 0 →
      _4A806F_get_mass_distortion_value pMiscTimer pActor =
          some (1, { pActor with massDistortionTime := 0 }) ∧
        ∀ later : MiscTimer,
          _4A806F_get_mass_distortion_value later { pActor with massDistortionTime := 0 } =
            some (1, { pActor with massDistortionTime := 0 })) ∧
    (pActor.massDistortionTime ≠ 0 → pActor.massDistortionTime ≤ pMiscTimer.time →
      0 < 1 - pMiscTimer.realtimeMillisecondsFloat
          (pMiscTimer.time - pActor.massDistortionTime) →
      ∃ value, _4A806F_get_mass_distortion_value pMiscTimer pActor = some (value, pActor)) ∧
    (∀ (value : ℚ) (actor : Actor),
      _4A806F_get_mass_distortion_value pMiscTimer pActor = some (value, actor) →
      0 < 1 - pMiscTimer.realtimeMillisecondsFloat
          (pMiscTimer.time - pActor.massDistortionTime) →
      actor.massDistortionTime = pActor.massDistortionTime) := by
  refine ⟨?_, ?_, ?_, ?_⟩
  · intro h0
    simp [_4A806F_get_mass_distortion_value, h0]
  · intro hnz hle hv
    rw [massDistortion_eval pMiscTimer pActor hnz hle, if_neg (not_lt.mpr hv)]
    refine ⟨?_, fun later => ?_⟩
    · have hc : massDistortionCurve (1 - pMiscTimer.realtimeMillisecondsFloat
          (pMiscTimer.time - pActor.massDistortionTime)) = 1 := by
        unfold massDistortionCurve
        rw [if_neg (by linarith), if_neg (not_lt.mpr hv)]
      rw [hc]
    · simp [_4A806F_get_mass_distortion_value]
  · intro hnz hle hv
    rw [massDistortion_eval pMiscTimer pActor hnz hle, if_pos hv]
    exact ⟨_, rfl⟩
  · intro value actor hret hv
    by_cases hnz : pActor.massDistortionTime = 0
    · simp [_4A806F_get_mass_distortion_value, hnz] at hret
      rw [← hret.2, hnz]
    · by_cases hle : pActor.massDistortionTime ≤ pMiscTimer.time
      · rw [massDistortion_eval pMiscTimer pActor hnz hle, if_pos hv] at hret
        simp only [Option.some.injEq, Prod.mk.injEq] at hret
        rw [← hret.2]
      · simp [_4A806F_get_mass_distortion_value, hnz, hle] at hret

/-- C19 at a concrete input: the spell applied at tick 100, now tick 400, 128 ticks per
unit: the distortion has run out, the call returns 1 and resets the actor. -/
theorem massDistortion_reset_when_run_out_witness :
    _4A806F_get_mass_distortion_value (demoTimer 400) ⟨100⟩ = some (1, ⟨0⟩) :=
  ((massDistortion_reset_when_run_out (demoTimer 400) ⟨100⟩).2.1 (by decide)
    (by simp [demoTimer]) (by norm_num [demoTimer])).1

/-! ### Vertices generated on crossing edges -/

/-- On entry to iteration `i` of the near-clip loop, `currvert` tells whether vertex `i` is
at or behind the near plane. -/
theorem nearClip_entry_currvert (NearClip : ℚ) (b : SpellFX_Billboard) (i : Nat) :
    (SpellFXNearClipAdjust.entry NearClip b i).currvert =
      decide (((SpellFXNearClipAdjust.closed b) i).pos.x ≤ NearClip) := by
  unfold SpellFXNearClipAdjust.entry
  cases i with
  | zero => simp [forLoop_zero]
  | succ k =>
    rw [forLoop_succ]
    simp [SpellFXNearClipAdjust.body]

/-- One iteration of the near-clip loop never rewrites a slot below `ProducedVerts` and
never lowers `ProducedVerts`. -/
theorem nearClip_body_stable (NearClip : ℚ) (field_64 : Nat → local_01) (i : Nat)
    (st : ClipLoopState) :
    st.ProducedVerts ≤ (SpellFXNearClipAdjust.body NearClip field_64 i st).ProducedVerts ∧
      ∀ j, j < st.ProducedVerts →
        (SpellFXNearClipAdjust.body NearClip field_64 i st).field_B4 j = st.field_B4 j := by
  unfold SpellFXNearClipAdjust.body
  by_cases hn : (field_64 (i + 1)).pos.x ≤ NearClip <;> cases hc : st.currvert <;>
    simp only [hn, hc, decide_True, decide_False, Bool.xor_false, Bool.xor_true, Bool.not_true,
      Bool.not_false, Bool.false_eq_true, if_true, if_false] <;>
    refine ⟨by omega, fun j hj => ?_⟩ <;>
    (try simp only [Function.update_apply]) <;>
    (try split_ifs) <;>
    first
      | rfl
      | (exfalso; omega)

/-- Later iterations of the near-clip loop keep what earlier iterations produced. -/
theorem nearClip_entry_stable (NearClip : ℚ) (b : SpellFX_Billboard) (i d : Nat) :
    (SpellFXNearClipAdjust.entry NearClip b i).ProducedVerts ≤
        (SpellFXNearClipAdjust.entry NearClip b (i + d)).ProducedVerts ∧
      ∀ j, j < (SpellFXNearClipAdjust.entry NearClip b i).ProducedVerts →
        (SpellFXNearClipAdjust.entry NearClip b (i + d)).field_B4 j =
          (SpellFXNearClipAdjust.entry NearClip b i).field_B4 j := by
  induction d with
  | zero => exact ⟨le_refl _, fun _ _ => rfl⟩
  | succ k ih =>
    have hstep : SpellFXNearClipAdjust.entry NearClip b (i + (k + 1)) =
        SpellFXNearClipAdjust.body NearClip (SpellFXNearClipAdjust.closed b) (i + k)
          (SpellFXNearClipAdjust.entry NearClip b (i + k)) := by
      unfold SpellFXNearClipAdjust.entry
      rw [← Nat.add_assoc, forLoop_succ]
    have hb := nearClip_body_stable NearClip (SpellFXNearClipAdjust.closed b) (i + k)
      (SpellFXNearClipAdjust.entry NearClip b (i + k))
    rw [hstep]
    refine ⟨le_trans ih.1 hb.1, fun j hj => ?_⟩
    rw [hb.2 j (lt_of_lt_of_le hj ih.1)]
    exact ih.2 j hj

/-- The vertex one iteration of the near-clip loop generates on a crossing edge: it is
written at slot `ProducedVerts`, has `x = NearClip` and is the point of the edge at a
parameter in `[0, 1]`. -/
theorem nearClip_body_crossing (NearClip : ℚ) (field_64 : Nat → local_01) (i : Nat)
    (st : ClipLoopState)
    (hc : st.currvert = decide ((field_64 i).pos.x ≤ NearClip))
    (hcross : ((field_64 i).pos.x ≤ NearClip ∧ NearClip < (field_64 (i + 1)).pos.x) ∨
      (NearClip < (field_64 i).pos.x ∧ (field_64 (i + 1)).pos.x ≤ NearClip)) :
    st.ProducedVerts < (SpellFXNearClipAdjust.body NearClip field_64 i st).ProducedVerts ∧
      (((SpellFXNearClipAdjust.body NearClip field_64 i st).field_B4
        st.ProducedVerts).pos.x = NearClip) ∧
      ∃ t : ℚ, 0 ≤ t ∧ t ≤ 1 ∧
        ((SpellFXNearClipAdjust.body NearClip field_64 i st).field_B4 st.ProducedVerts).pos =
          lerp (field_64 i).pos (field_64 (i + 1)).pos t := by
  unfold SpellFXNearClipAdjust.body
  rcases hcross with ⟨h1, h2⟩ | ⟨h1, h2⟩
  · -- leaving the clipped side: vertex `i` behind, vertex `i + 1` in front
    have hd : (0 : ℚ) < (field_64 (i + 1)).pos.x - (field_64 i).pos.x := by linarith
    have hd2 : (field_64 i).pos.x - (field_64 (i + 1)).pos.x ≠ 0 := by
      intro h; linarith
    simp only [hc, h1, not_le.mpr h2, decide_True, decide_False, Bool.xor_false,
      Bool.not_false, Bool.false_eq_true, if_true, if_false]
    refine ⟨by omega, ?_, ?_⟩
    · rw [Function.update_noteq (by omega), Function.update_same]
    · refine ⟨(NearClip - (field_64 i).pos.x) /
        ((field_64 (i + 1)).pos.x - (field_64 i).pos.x), ?_, ?_, ?_⟩
      · exact div_nonneg (by linarith) hd.le
      · exact (div_le_one hd).mpr (by linarith)
      · rw [Function.update_noteq (by omega), Function.update_same]
        simp only [lerp, Vec3f.mk.injEq]
        refine ⟨?_, ?_, ?_⟩ <;> field_simp <;> ring
  · -- entering the clipped side: vertex `i` in front, vertex `i + 1` behind
    have hd : (field_64 (i + 1)).pos.x - (field_64 i).pos.x < 0 := by linarith
    simp only [hc, not_le.mpr h1, h2, decide_True, decide_False, Bool.xor_true,
      Bool.not_false, Bool.not_true, Bool.false_eq_true, if_true, if_false]
    refine ⟨by omega, ?_, ?_⟩
    · rw [Function.update_same]
    · refine ⟨(NearClip - (field_64 i).pos.x) /
        ((field_64 (i + 1)).pos.x - (field_64 i).pos.x), ?_, ?_, ?_⟩
      · exact div_nonneg_of_nonpos (by linarith) hd.le
      · exact (div_le_one_of_neg hd).mpr (by linarith)
      · rw [Function.update_same]
        have hd3 : (field_64 (i + 1)).pos.x - (field_64 i).pos.x ≠ 0 := ne_of_lt hd
        simp only [lerp, Vec3f.mk.injEq]
        refine ⟨?_, ?_, ?_⟩ <;> field_simp <;> ring

/-- `SpellFXNearClipAdjust` on a non-empty polygon returns the loop state after all
iterations. -/
theorem nearClipAdjust_eq_entry (NearClip : ℚ) (b : SpellFX_Billboard)
    (hn : b.uNumVertices ≠ 0) :
    (SpellFXNearClipAdjust NearClip b).1 =
        (SpellFXNearClipAdjust.entry NearClip b b.uNumVertices).ProducedVerts ∧
      (SpellFXNearClipAdjust NearClip b).2.field_B4 =
        (SpellFXNearClipAdjust.entry NearClip b b.uNumVertices).field_B4 := by
  unfold SpellFXNearClipAdjust SpellFXNearClipAdjust.entry SpellFXNearClipAdjust.closed
  simp [hn]

/-- C20: for every polygon in `field_64` and every edge from vertex `i` to vertex `i + 1`
(vertex `uNumVertices` being the wrap-around copy of vertex 0) that crosses the near plane,
in the leaving or in the entering direction: the difference of the two `x` coordinates is
not zero; the loop of `SpellFXNearClipAdjust` takes its crossing branch in iteration `i`;
the vertex it generates there, at the output slot that is free on entry to that iteration,
is part of the output, has `x` exactly `NearClip` and is the point of the edge at an
interpolation parameter in `[0, 1]`. -/
theorem nearClip_crossing_edge_vertex (NearClip : ℚ) (b : SpellFX_Billboard) (i : Nat)
    (hi : i < b.uNumVertices)
    (hcross :
      (((SpellFXNearClipAdjust.closed b) i).pos.x ≤ NearClip ∧
        NearClip < ((SpellFXNearClipAdjust.closed b) (i + 1)).pos.x) ∨
      (NearClip < ((SpellFXNearClipAdjust.closed b) i).pos.x ∧
        ((SpellFXNearClipAdjust.closed b) (i + 1)).pos.x ≤ NearClip)) :
    ((SpellFXNearClipAdjust.closed b) (i + 1)).pos.x -
        ((SpellFXNearClipAdjust.closed b) i).pos.x ≠ 0 ∧
    ((SpellFXNearClipAdjust.closed b) i).pos.x -
        ((SpellFXNearClipAdjust.closed b) (i + 1)).pos.x ≠ 0 ∧
    xor (SpellFXNearClipAdjust.entry NearClip b i).currvert
        (decide (((SpellFXNearClipAdjust.closed b) (i + 1)).pos.x ≤ NearClip)) = true ∧
    (SpellFXNearClipAdjust.entry NearClip b i).ProducedVerts <
        (SpellFXNearClipAdjust NearClip b).1 ∧
    ((SpellFXNearClipAdjust NearClip b).2.field_B4
        (SpellFXNearClipAdjust.entry NearClip b i).ProducedVerts).pos.x = NearClip ∧
    ∃ t : ℚ, 0 ≤ t ∧ t ≤ 1 ∧
      ((SpellFXNearClipAdjust NearClip b).2.field_B4
          (SpellFXNearClipAdjust.entry NearClip b i).ProducedVerts).pos =
        lerp ((SpellFXNearClipAdjust.closed b) i).pos
          ((SpellFXNearClipAdjust.closed b) (i + 1)).pos t := by
  have hn : b.uNumVertices ≠ 0 := by omega
  have hcv := nearClip_entry_currvert NearClip b i
  have hbody := nearClip_body_crossing NearClip (SpellFXNearClipAdjust.closed b) i
    (SpellFXNearClipAdjust.entry NearClip b i) hcv hcross
  have hnext : SpellFXNearClipAdjust.entry NearClip b (i + 1) =
      SpellFXNearClipAdjust.body NearClip (SpellFXNearClipAdjust.closed b) i
        (SpellFXNearClipAdjust.entry NearClip b i) := by
    unfold SpellFXNearClipAdjust.entry
    rw [forLoop_succ]
  rw [← hnext] at hbody
  have hstab := nearClip_entry_stable NearClip b (i + 1) (b.uNumVertices - (i + 1))
  have hsum : i + 1 + (b.uNumVertices - (i + 1)) = b.uNumVertices := by omega
  rw [hsum] at hstab
  obtain ⟨hres1, hres2⟩ := nearClipAdjust_eq_entry NearClip b hn
  have hslot := hstab.2 _ hbody.1
  rw [hres1, hres2, hslot]
  refine ⟨?_, ?_, ?_, lt_of_lt_of_le hbody.1 hstab.1, hbody.2.1, hbody.2.2⟩
  · rcases hcross with ⟨h1, h2⟩ | ⟨h1, h2⟩
    · intro h; linarith
    · intro h; linarith
  · rcases hcross with ⟨h1, h2⟩ | ⟨h1, h2⟩
    · intro h; linarith
    · intro h; linarith
  · rw [hcv]
    rcases hcross with ⟨h1, h2⟩ | ⟨h1, h2⟩
    · simp [h1, not_le.mpr h2]
    · simp [not_le.mpr h1, h2]

/-- C20 at a concrete input: the triangle with `x = 0, 5, 100` clipped at `NearClip = 1`;
the edge from vertex 0 to vertex 1 leaves the clipped side, and the vertex generated for it
has `x = 1`. -/
theorem nearClip_crossing_edge_vertex_witness :
    ((SpellFXNearClipAdjust 1 (triangleX 0 5 100)).2.field_B4
      (SpellFXNearClipAdjust.entry 1 (triangleX 0 5 100) 0).ProducedVerts).pos.x = 1 :=
  (nearClip_crossing_edge_vertex 1 (triangleX 0 5 100) 0 (by decide)
    (Or.inl ⟨by norm_num [SpellFXNearClipAdjust.closed, triangleX, vertexAt,
        Function.update_apply],
      by norm_num [SpellFXNearClipAdjust.closed, triangleX, vertexAt,
        Function.update_apply]⟩)).2.2.2.2.1

/-! ### The fireball impact counter -/

theorem countFireball_append (l1 l2 : List SpriteFxCall) :
    countFireball (l1 ++ l2) = countFireball l1 + countFireball l2 := by
  simp [countFireball, List.filter_append]

/-- One `RenderAsSprite` call from a counter within `0..4`: the counter stays within `0..4`
and grows by the number of fireball particle runs of the call, and such a run is for the
sprite of the call, a fireball impact whose caster is not a sprite object. -/
theorem renderAsSprite_step (fx : SpriteFxEnv) (a2 : SpriteObject) (s : SpellFxRenderer)
    (h : 0 ≤ s.field_204 ∧ s.field_204 ≤ 4) :
    0 ≤ (RenderAsSprite fx a2 s).2.1.field_204 ∧
      (RenderAsSprite fx a2 s).2.1.field_204 ≤ 4 ∧
      (RenderAsSprite fx a2 s).2.1.field_204 =
        s.field_204 + (countFireball (RenderAsSprite fx a2 s).2.2 : Int) ∧
      ∀ a, SpriteFxCall._4A7688_fireball_collision_particle a ∈ (RenderAsSprite fx a2 s).2.2 →
        a.spell_caster_pid_type ≠ ObjectType.OBJECT_Sprite ∧
          a.uType = SpriteId.SPRITE_SPELL_FIRE_FIREBALL_IMPACT := by
  obtain ⟨h0, h4⟩ := h
  unfold RenderAsSprite
  cases ht : a2.uType with
  | SPRITE_SPELL_FIRE_FIREBALL_IMPACT =>
    by_cases hc : a2.spell_caster_pid_type = ObjectType.OBJECT_Sprite
    · simp [hc, h0, h4, countFireball, SpriteFxCall.isFireball]
    · by_cases hf : s.field_204 = 4
      · simp [hc, hf, countFireball, SpriteFxCall.isFireball]
      · simp only [ne_eq, hc, not_false_eq_true, if_true, hf, countFireball]
        refine ⟨by omega, by omega, by simp [SpriteFxCall.isFireball], ?_⟩
        intro a ha
        simp only [List.mem_cons, List.mem_singleton, List.not_mem_nil, or_false,
          SpriteFxCall._4A7688_fireball_collision_particle.injEq] at ha
        rcases ha with ha | ha
        · exact absurd ha (by simp)
        · rw [ha]
          exact ⟨hc, ht⟩
  | other value =>
    simp [h0, h4, countFireball, SpriteFxCall.isFireball]

/-- A sequence of `RenderAsSprite` calls keeps: the counter is within `0..4`, it equals its
value before the sequence plus the number of fireball particle runs, and every such run is
for a fireball impact whose caster is not a sprite object. -/
theorem renderSprites_invariant (fx : SpriteFxEnv) (sprites : List SpriteObject)
    (st : SpellFxRenderer × List SpriteFxCall) (base : Int)
    (h : 0 ≤ st.1.field_204 ∧ st.1.field_204 ≤ 4 ∧
      st.1.field_204 = base + (countFireball st.2 : Int) ∧
      ∀ a, SpriteFxCall._4A7688_fireball_collision_particle a ∈ st.2 →
        a.spell_caster_pid_type ≠ ObjectType.OBJECT_Sprite ∧
          a.uType = SpriteId.SPRITE_SPELL_FIRE_FIREBALL_IMPACT) :
    0 ≤ (sprites.foldl (fun st a2 =>
          ((RenderAsSprite fx a2 st.1).2.1, st.2 ++ (RenderAsSprite fx a2 st.1).2.2))
        st).1.field_204 ∧
      (sprites.foldl (fun st a2 =>
          ((RenderAsSprite fx a2 st.1).2.1, st.2 ++ (RenderAsSprite fx a2 st.1).2.2))
        st).1.field_204 ≤ 4 ∧
      (sprites.foldl (fun st a2 =>
          ((RenderAsSprite fx a2 st.1).2.1, st.2 ++ (RenderAsSprite fx a2 st.1).2.2))
        st).1.field_204 =
        base + (countFireball (sprites.foldl (fun st a2 =>
          ((RenderAsSprite fx a2 st.1).2.1, st.2 ++ (RenderAsSprite fx a2 st.1).2.2))
        st).2 : Int) ∧
      ∀ a, SpriteFxCall._4A7688_fireball_collision_particle a ∈
          (sprites.foldl (fun st a2 =>
            ((RenderAsSprite fx a2 st.1).2.1, st.2 ++ (RenderAsSprite fx a2 st.1).2.2))
          st).2 →
        a.spell_caster_pid_type ≠ ObjectType.OBJECT_Sprite ∧
          a.uType = SpriteId.SPRITE_SPELL_FIRE_FIREBALL_IMPACT := by
  induction sprites generalizing st with
  | nil => simpa using h
  | cons a2 rest ih =>
    rw [List.foldl_cons]
    apply ih
    obtain ⟨h0, h4, hcount, hmem⟩ := h
    have hstep := renderAsSprite_step fx a2 st.1 ⟨h0, h4⟩
    refine ⟨hstep.1, hstep.2.1, ?_, ?_⟩
    · rw [countFireball_append, hstep.2.2.1, hcount]
      push_cast
      ring
    · intro a ha
      rcases List.mem_append.mp ha with ha | ha
      · exact hmem a ha
      · exact hstep.2.2.2 a ha

/-- C22: within one frame, that is after a `RenderSpecialEffects` call (which resets
`field_204` to 0) and through any sequence of `RenderAsSprite` calls,
`_4A7688_fireball_collision_particle` runs at most 4 times, and only for fireball impact
sprites whose caster is not a sprite object; `field_204` stays within `0..4` and equals the
number of runs; and `RenderAsSprite` returns true for every sprite of type
`SPRITE_SPELL_FIRE_FIREBALL_IMPACT`, in every state. -/
theorem fireball_particles_at_most_four (env : Env) (s0 : SpellFxRenderer) (fx : SpriteFxEnv)
    (sprites : List SpriteObject) :
    countFireball (renderSprites fx sprites (RenderSpecialEffects env s0).1).2 ≤ 4 ∧
    (∀ a, SpriteFxCall._4A7688_fireball_collision_particle a ∈
        (renderSprites fx sprites (RenderSpecialEffects env s0).1).2 →
      a.spell_caster_pid_type ≠ ObjectType.OBJECT_Sprite ∧
        a.uType = SpriteId.SPRITE_SPELL_FIRE_FIREBALL_IMPACT) ∧
    0 ≤ (renderSprites fx sprites (RenderSpecialEffects env s0).1).1.field_204 ∧
    (renderSprites fx sprites (RenderSpecialEffects env s0).1).1.field_204 ≤ 4 ∧
    (renderSprites fx sprites (RenderSpecialEffects env s0).1).1.field_204 =
      (countFireball (renderSprites fx sprites (RenderSpecialEffects env s0).1).2 : Int) ∧
    (∀ (a2 : SpriteObject) (s : SpellFxRenderer),
      a2.uType = SpriteId.SPRITE_SPELL_FIRE_FIREBALL_IMPACT →
        (RenderAsSprite fx a2 s).1 = true) := by
  have hreset := (renderSpecialEffects_uNumProjectiles env s0).2
  have hinv := renderSprites_invariant fx sprites ((RenderSpecialEffects env s0).1, []) 0
    ⟨by rw [hreset], by rw [hreset]; decide, by simp [hreset, countFireball],
      fun a ha => absurd ha (List.not_mem_nil _)⟩
  unfold renderSprites
  refine ⟨?_, hinv.2.2.2, hinv.1, hinv.2.1, by simpa using hinv.2.2.1, ?_⟩
  · have h1 := hinv.2.1
    have h2 := hinv.2.2.1
    omega
  · intro a2 s ht
    unfold RenderAsSprite
    rw [ht]
    by_cases hc : a2.spell_caster_pid_type = ObjectType.OBJECT_Sprite
    · simp [hc]
    · by_cases hf : s.field_204 = 4 <;> simp [hc, hf]

/-- C22 at a concrete input: six fireball impacts in one frame run the particle four
times. -/
theorem fireball_particles_at_most_four_witness :
    countFireball (renderSprites demoSpriteFx
      [fireballImpact 0, fireballImpact 1, fireballImpact 2, fireballImpact 3,
        fireballImpact 4, fireballImpact 5]
      (RenderSpecialEffects (frameEnv 1) idleRenderer).1).2 ≤ 4 ∧
    (RenderAsSprite demoSpriteFx (fireballImpact 0) idleRenderer).1 = true :=
  have h := fireball_particles_at_most_four (frameEnv 1) idleRenderer demoSpriteFx
    [fireballImpact 0, fireballImpact 1, fireballImpact 2, fireballImpact 3,
      fireballImpact 4, fireballImpact 5]
  ⟨h.1, h.2.2.2.2.2 (fireballImpact 0) idleRenderer rfl⟩

/-! ### The far clip as the mirror image of the near clip -/

/-- Negating every term of a quotient of differences leaves it as it is. -/
theorem mirror_ratio (f a c d : ℚ) : (-f - -a) / (-c - -d) = (f - a) / (c - d) := by
  have h1 : -f - -a = -(f - a) := by ring
  have h2 : -c - -d = -(c - d) := by ring
  rw [h1, h2, neg_div_neg_eq]

/-- The wrap-around polygon of the mirrored billboard is the mirrored wrap-around
polygon. -/
theorem closed_mirror (b : SpellFX_Billboard) (i : Nat) :
    Function.update (mirrorBillboard b).field_64 (mirrorBillboard b).uNumVertices
        ((mirrorBillboard b).field_64 0) i =
      mirrorVertex (Function.update b.field_64 b.uNumVertices (b.field_64 0) i) := by
  simp only [mirrorBillboard, Function.update_apply]
  split_ifs <;> rfl

/-- One iteration of the far-clip loop and one iteration of the near-clip loop at the
negated distance on the mirrored polygon, from states that mirror each other, give states
that mirror each other: same count, same flag, same positions up to the sign of `x`. -/
theorem farClip_body_mirror (farclip : ℚ) (field_64 mirrored : Nat → local_01) (i : Nat)
    (st st2 : ClipLoopState) (hm : ∀ k, mirrored k = mirrorVertex (field_64 k))
    (h : st.ProducedVerts = st2.ProducedVerts ∧ st.currvert = st2.currvert ∧
      ∀ j, j < st.ProducedVerts → (st.field_B4 j).pos = negX (st2.field_B4 j).pos) :
    (SpellFXFarClipAdjust.body farclip field_64 i st).ProducedVerts =
        (SpellFXNearClipAdjust.body (-farclip) mirrored i st2).ProducedVerts ∧
      (SpellFXFarClipAdjust.body farclip field_64 i st).currvert =
        (SpellFXNearClipAdjust.body (-farclip) mirrored i st2).currvert ∧
      ∀ j, j < (SpellFXFarClipAdjust.body farclip field_64 i st).ProducedVerts →
        ((SpellFXFarClipAdjust.body farclip field_64 i st).field_B4 j).pos =
          negX ((SpellFXNearClipAdjust.body (-farclip) mirrored i st2).field_B4 j).pos := by
  obtain ⟨B, P, c⟩ := st
  obtain ⟨B2, P2, c2⟩ := st2
  obtain ⟨hp, hc, hb⟩ := h
  simp only at hp hc hb
  subst hp hc
  unfold SpellFXFarClipAdjust.body SpellFXNearClipAdjust.body
  simp only [hm, mirrorVertex, negX, neg_le_neg_iff, mirror_ratio]
  by_cases hn : (field_64 (i + 1)).pos.x ≥ farclip <;> cases c <;>
    simp only [hn, ge_iff_le, decide_True, decide_False, Bool.xor_false, Bool.xor_true,
      Bool.not_true, Bool.not_false, Bool.false_eq_true, if_true, if_false, true_and] <;>
    intro j hj <;>
    (try simp only [Function.update_apply]) <;>
    (try split_ifs) <;>
    first
      | exact hb j (by omega)
      | simp

/-- The far-clip loop and the near-clip loop at the negated distance on the mirrored
polygon, run for `n` iterations from empty outputs, give states that mirror each other. -/
theorem farClip_loop_mirror (farclip : ℚ) (field_64 mirrored B0 B1 : Nat → local_01)
    (c : Bool) (hm : ∀ k, mirrored k = mirrorVertex (field_64 k)) (n : Nat) :
    (forLoop n (SpellFXFarClipAdjust.body farclip field_64) ⟨B0, 0, c⟩).ProducedVerts =
        (forLoop n (SpellFXNearClipAdjust.body (-farclip) mirrored) ⟨B1, 0, c⟩).ProducedVerts ∧
      (forLoop n (SpellFXFarClipAdjust.body farclip field_64) ⟨B0, 0, c⟩).currvert =
        (forLoop n (SpellFXNearClipAdjust.body (-farclip) mirrored) ⟨B1, 0, c⟩).currvert ∧
      ∀ j, j < (forLoop n (SpellFXFarClipAdjust.body farclip field_64) ⟨B0, 0, c⟩).ProducedVerts →
        ((forLoop n (SpellFXFarClipAdjust.body farclip field_64) ⟨B0, 0, c⟩).field_B4 j).pos =
          negX ((forLoop n (SpellFXNearClipAdjust.body (-farclip) mirrored)
            ⟨B1, 0, c⟩).field_B4 j).pos := by
  induction n with
  | zero => simp [forLoop_zero]
  | succ k ih =>
    rw [forLoop_succ, forLoop_succ]
    exact farClip_body_mirror farclip field_64 mirrored k _ _ hm ih

/-- C21: the far clip is the mirror image of the near clip. For every polygon held in
`field_64`, so for every triangle, and every clip distance `farclip`,
`SpellFXFarClipAdjust(farclip)` returns the same vertex count as
`SpellFXNearClipAdjust(-farclip)` on the polygon with every `x` coordinate negated, and the
position of every output vertex is the position of the output vertex in the same slot of
that near clip with its `x` coordinate negated back. -/
theorem farClip_mirrors_nearClip (farclip : ℚ) (b : SpellFX_Billboard) :
    (SpellFXFarClipAdjust farclip b).1 =
        (SpellFXNearClipAdjust (-farclip) (mirrorBillboard b)).1 ∧
    (SpellFXFarClipAdjust farclip b).2.uNumVertices =
        (SpellFXNearClipAdjust (-farclip) (mirrorBillboard b)).2.uNumVertices ∧
    ∀ j, j < (SpellFXFarClipAdjust farclip b).1 →
      ((SpellFXFarClipAdjust farclip b).2.field_B4 j).pos =
        negX ((SpellFXNearClipAdjust (-farclip) (mirrorBillboard b)).2.field_B4 j).pos := by
  by_cases hn : b.uNumVertices = 0
  · have hn2 : (mirrorBillboard b).uNumVertices = 0 := hn
    simp [SpellFXFarClipAdjust, SpellFXNearClipAdjust, hn, hn2]
  · have hn2 : (mirrorBillboard b).uNumVertices ≠ 0 := hn
    have hm := closed_mirror b
    have hc : decide ((Function.update b.field_64 b.uNumVertices (b.field_64 0) 0).pos.x ≥
          farclip) =
        decide ((Function.update (mirrorBillboard b).field_64 (mirrorBillboard b).uNumVertices
          ((mirrorBillboard b).field_64 0) 0).pos.x ≤ -farclip) := by
      rw [hm 0]
      simp [mirrorVertex, negX]
    have hloop := farClip_loop_mirror farclip
      (Function.update b.field_64 b.uNumVertices (b.field_64 0))
      (Function.update (mirrorBillboard b).field_64 (mirrorBillboard b).uNumVertices
        ((mirrorBillboard b).field_64 0))
      b.field_B4 (mirrorBillboard b).field_B4
      (decide ((Function.update b.field_64 b.uNumVertices (b.field_64 0) 0).pos.x ≥ farclip))
      hm b.uNumVertices
    unfold SpellFXFarClipAdjust SpellFXNearClipAdjust
    simp only [hn, hn2, if_false]
    rw [← hc]
    exact ⟨hloop.1, hloop.1, hloop.2.2⟩

/-- C21 at a concrete input: the triangle with `x = 5, 10, 100` clipped at the far distance
50 has as many output vertices as its mirror image clipped at the near distance -50. -/
theorem farClip_mirrors_nearClip_witness :
    (SpellFXFarClipAdjust 50 (triangleX 5 10 100)).1 =
      (SpellFXNearClipAdjust (-50) (mirrorBillboard (triangleX 5 10 100))).1 :=
  (farClip_mirrors_nearClip 50 (triangleX 5 10 100)).1

/-! ### The view clip: which plane is clipped, and the bounds of the output -/

/-- One iteration of the near-clip loop keeps every produced vertex at `x ≤ hi`, when the
clip distance and the vertex the iteration may copy out are at most `hi`. -/
theorem nearClip_body_upper (NearClip hi : ℚ) (field_64 : Nat → local_01) (i : Nat)
    (st : ClipLoopState) (hle : NearClip ≤ hi) (hv : (field_64 (i + 1)).pos.x ≤ hi)
    (h : ∀ j, j < st.ProducedVerts → (st.field_B4 j).pos.x ≤ hi) :
    ∀ j, j < (SpellFXNearClipAdjust.body NearClip field_64 i st).ProducedVerts →
      ((SpellFXNearClipAdjust.body NearClip field_64 i st).field_B4 j).pos.x ≤ hi := by
  unfold SpellFXNearClipAdjust.body
  by_cases hn : (field_64 (i + 1)).pos.x ≤ NearClip <;> cases hc : st.currvert <;>
    simp only [hn, hc, decide_True, decide_False, Bool.xor_false, Bool.xor_true, Bool.not_true,
      Bool.not_false, Bool.false_eq_true, if_true, if_false] <;>
    intro j hj <;>
    (try simp only [Function.update_apply]) <;>
    (try split_ifs) <;>
    first
      | exact hle
      | exact hv
      | exact h j (by omega)

/-- The near-clip loop, run for `n` iterations from an empty output on vertices that are
all at `x ≤ hi`, with the clip distance at most `hi`: every produced vertex has
`x ≤ hi`. -/
theorem nearClip_loop_upper (NearClip hi : ℚ) (field_64 B0 : Nat → local_01) (c : Bool)
    (n : Nat) (hle : NearClip ≤ hi) (hv : ∀ i, i < n → (field_64 (i + 1)).pos.x ≤ hi) :
    ∀ j, j < (forLoop n (SpellFXNearClipAdjust.body NearClip field_64) ⟨B0, 0, c⟩).ProducedVerts →
      ((forLoop n (SpellFXNearClipAdjust.body NearClip field_64) ⟨B0, 0, c⟩).field_B4 j).pos.x ≤
        hi := by
  refine forLoop_invariant
    (fun (_ : Nat) (st : ClipLoopState) =>
      ∀ j, j < st.ProducedVerts → (st.field_B4 j).pos.x ≤ hi)
    n _ _ (fun j hj => absurd hj (Nat.not_lt_zero j)) ?_
  intro i st hi2 h
  exact nearClip_body_upper NearClip hi field_64 i st hle (hv i hi2) h

/-- One iteration of the near-clip loop whose next vertex is beyond the near plane copies
that vertex out, into the last slot it produces. -/
theorem nearClip_body_copy (NearClip : ℚ) (field_64 : Nat → local_01) (i : Nat)
    (st : ClipLoopState) (h : NearClip < (field_64 (i + 1)).pos.x) :
    1 ≤ (SpellFXNearClipAdjust.body NearClip field_64 i st).ProducedVerts ∧
      (SpellFXNearClipAdjust.body NearClip field_64 i st).field_B4
          ((SpellFXNearClipAdjust.body NearClip field_64 i st).ProducedVerts - 1) =
        field_64 (i + 1) := by
  have hn : ¬ (field_64 (i + 1)).pos.x ≤ NearClip := not_le.mpr h
  unfold SpellFXNearClipAdjust.body
  cases hc : st.currvert <;>
    simp only [hn, hc, decide_False, Bool.xor_false, Bool.not_false, Bool.false_eq_true,
      if_true, if_false, Nat.add_sub_cancel, Function.update_same] <;>
    exact ⟨by omega, trivial⟩

/-- A vertex of the polygon that is beyond the near plane is among the output vertices of
`SpellFXNearClipAdjust`. -/
theorem nearClip_copied_vertex (NearClip : ℚ) (b : SpellFX_Billboard) (i : Nat)
    (hi : i < b.uNumVertices)
    (h : NearClip < ((SpellFXNearClipAdjust.closed b) (i + 1)).pos.x) :
    ∃ j, j < (SpellFXNearClipAdjust NearClip b).1 ∧
      (SpellFXNearClipAdjust NearClip b).2.field_B4 j =
        (SpellFXNearClipAdjust.closed b) (i + 1) := by
  have hn : b.uNumVertices ≠ 0 := by omega
  have hnext : SpellFXNearClipAdjust.entry NearClip b (i + 1) =
      SpellFXNearClipAdjust.body NearClip (SpellFXNearClipAdjust.closed b) i
        (SpellFXNearClipAdjust.entry NearClip b i) := by
    unfold SpellFXNearClipAdjust.entry
    rw [forLoop_succ]
  have hcopy := nearClip_body_copy NearClip (SpellFXNearClipAdjust.closed b) i
    (SpellFXNearClipAdjust.entry NearClip b i) h
  rw [← hnext] at hcopy
  have hstab := nearClip_entry_stable NearClip b (i + 1) (b.uNumVertices - (i + 1))
  have hsum : i + 1 + (b.uNumVertices - (i + 1)) = b.uNumVertices := by omega
  rw [hsum] at hstab
  obtain ⟨hres1, hres2⟩ := nearClipAdjust_eq_entry NearClip b hn
  have hlt : (SpellFXNearClipAdjust.entry NearClip b (i + 1)).ProducedVerts - 1 <
      (SpellFXNearClipAdjust.entry NearClip b (i + 1)).ProducedVerts := by omega
  refine ⟨(SpellFXNearClipAdjust.entry NearClip b (i + 1)).ProducedVerts - 1, ?_, ?_⟩
  · rw [hres1]
    exact lt_of_lt_of_le hlt hstab.1
  · rw [hres2, hstab.2 _ hlt]
    exact hcopy.2

/-- `SpellFXViewClip` on a non-empty polygon clips against one plane: it is the near clip
when some vertex is at or behind the near plane; otherwise the far clip when some vertex is
at or beyond the far plane; otherwise it copies the vertices out unchanged. -/
theorem viewClip_path (cam : Camera3D) (b : SpellFX_Billboard) (hn : b.uNumVertices ≠ 0) :
    ((∃ k, k < b.uNumVertices ∧ (b.field_64 k).pos.x ≤ cam.NearClip) →
      SpellFXViewClip cam b =
        (decide ((SpellFXNearClipAdjust cam.NearClip b).2.uNumVertices ≠ 0),
          (SpellFXNearClipAdjust cam.NearClip b).2)) ∧
    (¬ (∃ k, k < b.uNumVertices ∧ (b.field_64 k).pos.x ≤ cam.NearClip) →
      (∃ k, k < b.uNumVertices ∧ cam.FarClip ≤ (b.field_64 k).pos.x) →
      SpellFXViewClip cam b =
        (decide ((SpellFXFarClipAdjust cam.FarClip b).2.uNumVertices ≠ 0),
          (SpellFXFarClipAdjust cam.FarClip b).2)) ∧
    (¬ (∃ k, k < b.uNumVertices ∧ (b.field_64 k).pos.x ≤ cam.NearClip) →
      ¬ (∃ k, k < b.uNumVertices ∧ cam.FarClip ≤ (b.field_64 k).pos.x) →
      (SpellFXViewClip cam b).1 = true ∧
        (SpellFXViewClip cam b).2.uNumVertices = b.uNumVertices ∧
        ∀ j, j < b.uNumVertices → (SpellFXViewClip cam b).2.field_B4 j = b.field_64 j) := by
  have hn0 : ¬ b.uNumVertices ≤ 0 := by omega
  have hscan := viewClip_scan_iff cam.NearClip cam.FarClip b.field_64 b.uNumVertices
  refine ⟨?_, ?_, ?_⟩
  · intro hnear
    have h1 := hscan.1.mpr hnear
    unfold SpellFXViewClip
    simp only [hn0, if_false, h1, Bool.not_true, Bool.false_eq_true]
  · intro hnear hfar
    have h1 : (forLoop b.uNumVertices
        (SpellFXViewClip.scan cam.NearClip cam.FarClip b.field_64) (false, false)).1 = false := by
      cases hv : (forLoop b.uNumVertices
        (SpellFXViewClip.scan cam.NearClip cam.FarClip b.field_64) (false, false)).1
      · rfl
      · exact absurd (hscan.1.mp hv) hnear
    have h2 : (forLoop b.uNumVertices
        (SpellFXViewClip.scan cam.NearClip cam.FarClip b.field_64) (false, false)).2 = true := by
      apply hscan.2.mpr
      obtain ⟨k, hk, hkf⟩ := hfar
      refine ⟨k, hk, ?_, hkf⟩
      exact not_le.mp (fun hle => hnear ⟨k, hk, hle⟩)
    unfold SpellFXViewClip
    simp only [hn0, if_false, h1, h2, Bool.not_false, if_true]
  · intro hnear hfar
    have h1 : (forLoop b.uNumVertices
        (SpellFXViewClip.scan cam.NearClip cam.FarClip b.field_64) (false, false)).1 = false := by
      cases hv : (forLoop b.uNumVertices
        (SpellFXViewClip.scan cam.NearClip cam.FarClip b.field_64) (false, false)).1
      · rfl
      · exact absurd (hscan.1.mp hv) hnear
    have h2 : (forLoop b.uNumVertices
        (SpellFXViewClip.scan cam.NearClip cam.FarClip b.field_64) (false, false)).2 = false := by
      cases hv : (forLoop b.uNumVertices
        (SpellFXViewClip.scan cam.NearClip cam.FarClip b.field_64) (false, false)).2
      · rfl
      · obtain ⟨k, hk, _, hkf⟩ := hscan.2.mp hv
        exact absurd ⟨k, hk, hkf⟩ hfar
    unfold SpellFXViewClip
    simp only [hn0, if_false, h1, h2, Bool.not_false, if_true, Bool.false_eq_true]
    refine ⟨by simp [hn], trivial, fun j hj => ?_⟩
    exact viewClip_copy b.field_64 b.field_B4 b.uNumVertices j hj

/-- The far clip of a polygon whose vertices are all beyond `lo`, with `lo < farclip`:
every output vertex has `lo < x ≤ farclip`. -/
theorem farClipAdjust_bounds (lo farclip : ℚ) (b : SpellFX_Billboard)
    (hn : b.uNumVertices ≠ 0) (hlo : lo < farclip)
    (hall : ∀ k, k < b.uNumVertices → lo < (b.field_64 k).pos.x) :
    ∀ j, j < (SpellFXFarClipAdjust farclip b).2.uNumVertices →
      lo < ((SpellFXFarClipAdjust farclip b).2.field_B4 j).pos.x ∧
        ((SpellFXFarClipAdjust farclip b).2.field_B4 j).pos.x ≤ farclip := by
  unfold SpellFXFarClipAdjust
  simp only [hn, if_false]
  refine farClip_loop_invariant lo farclip _ b.field_B4 _ b.uNumVertices hlo ?_
  intro i hi
  by_cases hin : i + 1 = b.uNumVertices
  · rw [hin, Function.update_same]
    exact hall 0 (by omega)
  · rw [Function.update_noteq hin]
    exact hall (i + 1) (by omega)

/-- The near clip of a non-empty polygon: every output vertex has `x ≥ NearClip`, and
`x ≤ hi` when the clip distance and all vertices of the polygon are at most `hi`. -/
theorem nearClipAdjust_bounds (NearClip : ℚ) (b : SpellFX_Billboard)
    (hn : b.uNumVertices ≠ 0) :
    (∀ j, j < (SpellFXNearClipAdjust NearClip b).2.uNumVertices →
      NearClip ≤ ((SpellFXNearClipAdjust NearClip b).2.field_B4 j).pos.x) ∧
    (∀ hi : ℚ, NearClip ≤ hi → (∀ k, k < b.uNumVertices → (b.field_64 k).pos.x ≤ hi) →
      ∀ j, j < (SpellFXNearClipAdjust NearClip b).2.uNumVertices →
        ((SpellFXNearClipAdjust NearClip b).2.field_B4 j).pos.x ≤ hi) := by
  unfold SpellFXNearClipAdjust
  simp only [hn, if_false]
  refine ⟨(nearClip_loop_invariant NearClip _ b.field_B4 _ b.uNumVertices).1, ?_⟩
  intro hi hle hall
  refine nearClip_loop_upper NearClip hi _ b.field_B4 _ b.uNumVertices hle ?_
  intro i hi2
  by_cases hin : i + 1 = b.uNumVertices
  · rw [hin, Function.update_same]
    exact hall 0 (by omega)
  · rw [Function.update_noteq hin]
    exact hall (i + 1) (by omega)

/-- A vertex of a non-empty polygon that is beyond the near plane is among the output
vertices of `SpellFXNearClipAdjust`. -/
theorem nearClipAdjust_keeps_vertex (NearClip : ℚ) (b : SpellFX_Billboard) (k : Nat)
    (hk : k < b.uNumVertices) (h : NearClip < (b.field_64 k).pos.x) :
    ∃ j, j < (SpellFXNearClipAdjust NearClip b).2.uNumVertices ∧
      (SpellFXNearClipAdjust NearClip b).2.field_B4 j = b.field_64 k := by
  have hn : b.uNumVertices ≠ 0 := by omega
  have hcount : (SpellFXNearClipAdjust NearClip b).2.uNumVertices =
      (SpellFXNearClipAdjust NearClip b).1 := by
    unfold SpellFXNearClipAdjust
    simp [hn]
  rw [hcount]
  cases k with
  | zero =>
    -- vertex 0 is copied out as the wrap-around vertex, on the last edge
    have hc : (SpellFXNearClipAdjust.closed b) (b.uNumVertices - 1 + 1) = b.field_64 0 := by
      have : b.uNumVertices - 1 + 1 = b.uNumVertices := by omega
      rw [this]
      simp [SpellFXNearClipAdjust.closed]
    have := nearClip_copied_vertex NearClip b (b.uNumVertices - 1) (by omega) (by rw [hc]; exact h)
    rw [hc] at this
    exact this
  | succ m =>
    have hc : (SpellFXNearClipAdjust.closed b) (m + 1) = b.field_64 (m + 1) := by
      unfold SpellFXNearClipAdjust.closed
      exact Function.update_noteq (by omega) _ _
    have := nearClip_copied_vertex NearClip b m (by omega) (by rw [hc]; exact h)
    rw [hc] at this
    exact this

/-- The output of `SpellFXViewClip` on a non-empty polygon, for near < far: the flag
returned tells whether any vertex is left; every output vertex has `x ≥ near`; and every
output vertex has `x ≤ far` exactly when the polygon does not have both a vertex at or
behind the near plane and a vertex beyond the far plane. -/
theorem viewClip_bounds (cam : Camera3D) (b : SpellFX_Billboard) (hn : b.uNumVertices ≠ 0)
    (hnf : cam.NearClip < cam.FarClip) :
    ((SpellFXViewClip cam b).1 = true ↔ (SpellFXViewClip cam b).2.uNumVertices ≠ 0) ∧
    (∀ j, j < (SpellFXViewClip cam b).2.uNumVertices →
      cam.NearClip ≤ ((SpellFXViewClip cam b).2.field_B4 j).pos.x) ∧
    ((∀ j, j < (SpellFXViewClip cam b).2.uNumVertices →
        ((SpellFXViewClip cam b).2.field_B4 j).pos.x ≤ cam.FarClip) ↔
      ¬ ((∃ k, k < b.uNumVertices ∧ (b.field_64 k).pos.x ≤ cam.NearClip) ∧
        (∃ k, k < b.uNumVertices ∧ cam.FarClip < (b.field_64 k).pos.x))) := by
  obtain ⟨hp1, hp2, hp3⟩ := viewClip_path cam b hn
  by_cases hA : ∃ k, k < b.uNumVertices ∧ (b.field_64 k).pos.x ≤ cam.NearClip
  · -- the near clip runs
    rw [hp1 hA]
    have hb := nearClipAdjust_bounds cam.NearClip b hn
    refine ⟨by simp, hb.1, ?_⟩
    constructor
    · intro hall hboth
      obtain ⟨k, hk, hkf⟩ := hboth.2
      obtain ⟨j, hj, hjv⟩ :=
        nearClipAdjust_keeps_vertex cam.NearClip b k hk (lt_trans hnf hkf)
      have := hall j hj
      simp only at this
      rw [hjv] at this
      exact absurd this (not_le.mpr hkf)
    · intro hnot
      have hallfar : ∀ k, k < b.uNumVertices → (b.field_64 k).pos.x ≤ cam.FarClip := by
        intro k hk
        exact not_lt.mp (fun hlt => hnot ⟨hA, ⟨k, hk, hlt⟩⟩)
      exact hb.2 cam.FarClip hnf.le hallfar
  · have hallnear : ∀ k, k < b.uNumVertices → cam.NearClip < (b.field_64 k).pos.x := by
      intro k hk
      exact not_le.mp (fun hle => hA ⟨k, hk, hle⟩)
    by_cases hB : ∃ k, k < b.uNumVertices ∧ cam.FarClip ≤ (b.field_64 k).pos.x
    · -- the far clip runs
      rw [hp2 hA hB]
      have hb := farClipAdjust_bounds cam.NearClip cam.FarClip b hn hnf hallnear
      refine ⟨by simp, fun j hj => (hb j hj).1.le, ?_⟩
      exact ⟨fun _ hboth => hA hboth.1, fun _ j hj => (hb j hj).2⟩
    · -- no clip: the vertices are copied out
      obtain ⟨hret, hcount, hcopy⟩ := hp3 hA hB
      rw [hcount]
      refine ⟨by simp [hret, hn], fun j hj => ?_, ?_⟩
      · rw [hcopy j hj]
        exact (hallnear j hj).le
      · refine ⟨fun _ hboth => hA hboth.1, fun _ j hj => ?_⟩
        rw [hcopy j hj]
        exact not_lt.mp (fun hlt => hB ⟨j, hj, hlt.le⟩)

/-- C6 (amended): for every triangle held in `field_64` (`uNumVertices = 3`) and every
near < far clip distance, `SpellFXViewClip` returns true exactly when it leaves at least
one output vertex; every output vertex `field_B4[0 .. uNumVertices)` has view-space
`x ≥ near`; and every output vertex has `x ≤ far`, so lies between the near and the far
clip distance inclusive, if and only if the triangle does not have both a vertex with
`x ≤ near` and a vertex with `x > far`. The function clips against one plane per call: its
result is that of `SpellFXNearClipAdjust(near)` when some vertex has `x ≤ near`; otherwise
that of `SpellFXFarClipAdjust(far)` when some vertex has `x ≥ far`; otherwise the three
vertices are copied out unchanged. -/
theorem viewClip_triangle_bounds (cam : Camera3D) (b : SpellFX_Billboard)
    (h3 : b.uNumVertices = 3) (hnf : cam.NearClip < cam.FarClip) :
    ((SpellFXViewClip cam b).1 = true ↔ (SpellFXViewClip cam b).2.uNumVertices ≠ 0) ∧
    (∀ j, j < (SpellFXViewClip cam b).2.uNumVertices →
      cam.NearClip ≤ ((SpellFXViewClip cam b).2.field_B4 j).pos.x) ∧
    ((∀ j, j < (SpellFXViewClip cam b).2.uNumVertices →
        ((SpellFXViewClip cam b).2.field_B4 j).pos.x ≤ cam.FarClip) ↔
      ¬ ((∃ i, i < 3 ∧ (b.field_64 i).pos.x ≤ cam.NearClip) ∧
        (∃ i, i < 3 ∧ cam.FarClip < (b.field_64 i).pos.x))) ∧
    ((∃ i, i < 3 ∧ (b.field_64 i).pos.x ≤ cam.NearClip) →
      SpellFXViewClip cam b =
        (decide ((SpellFXNearClipAdjust cam.NearClip b).2.uNumVertices ≠ 0),
          (SpellFXNearClipAdjust cam.NearClip b).2)) ∧
    (¬ (∃ i, i < 3 ∧ (b.field_64 i).pos.x ≤ cam.NearClip) →
      (∃ i, i < 3 ∧ cam.FarClip ≤ (b.field_64 i).pos.x) →
      SpellFXViewClip cam b =
        (decide ((SpellFXFarClipAdjust cam.FarClip b).2.uNumVertices ≠ 0),
          (SpellFXFarClipAdjust cam.FarClip b).2)) ∧
    (¬ (∃ i, i < 3 ∧ (b.field_64 i).pos.x ≤ cam.NearClip) →
      ¬ (∃ i, i < 3 ∧ cam.FarClip ≤ (b.field_64 i).pos.x) →
      (SpellFXViewClip cam b).1 = true ∧
        (SpellFXViewClip cam b).2.uNumVertices = 3 ∧
        ∀ j, j < 3 → (SpellFXViewClip cam b).2.field_B4 j = b.field_64 j) := by
  have hn : b.uNumVertices ≠ 0 := by omega
  have hb := viewClip_bounds cam b hn hnf
  have hp := viewClip_path cam b hn
  rw [h3] at hb hp
  exact ⟨hb.1, hb.2.1, hb.2.2, hp.1, hp.2.1, hp.2.2⟩

/-- C6 (amended) at concrete inputs, clip distances 1 and 50: the triangle with
`x = 0, 5, 10` has a vertex behind the near plane and none beyond the far plane, so the
near clip runs and every output vertex lies within both planes. -/
theorem viewClip_triangle_bounds_witness :
    (∀ j, j < (SpellFXViewClip (identityCamera 5) (triangleX 0 5 10)).2.uNumVertices →
      (identityCamera 5).NearClip ≤
        ((SpellFXViewClip (identityCamera 5) (triangleX 0 5 10)).2.field_B4 j).pos.x) ∧
    (∀ j, j < (SpellFXViewClip (identityCamera 5) (triangleX 0 5 10)).2.uNumVertices →
      ((SpellFXViewClip (identityCamera 5) (triangleX 0 5 10)).2.field_B4 j).pos.x ≤
        (identityCamera 5).FarClip) ∧
    SpellFXViewClip (identityCamera 5) (triangleX 0 5 10) =
      (decide ((SpellFXNearClipAdjust (identityCamera 5).NearClip
          (triangleX 0 5 10)).2.uNumVertices ≠ 0),
        (SpellFXNearClipAdjust (identityCamera 5).NearClip (triangleX 0 5 10)).2) :=
  have h := viewClip_triangle_bounds (identityCamera 5) (triangleX 0 5 10) rfl
    (by norm_num [identityCamera])
  ⟨h.2.1,
    h.2.2.1.mpr (by
      rintro ⟨_, ⟨i, hi, hfar⟩⟩
      interval_cases i <;> norm_num [identityCamera, triangleX, vertexAt] at hfar),
    h.2.2.2.1 ⟨0, by decide, by norm_num [identityCamera, triangleX, vertexAt]⟩⟩

end SpellFx
